import Mathlib

/-!
Verification of the resolution engine of `lxd_inventory.py` (vosdev/ansible-lxd-inventory).

The Python source is shallowly embedded in Lean: JSON dictionaries become
association lists (`List (String × _)`) preserving insertion order, Python
`None` becomes `Option`, fatal `sys.exit(1)` paths become `Except.error`,
and the external collaborators (HTTP fetch, the `re` regex engine) are
passed in as explicit parameters.  Each definition is a direct translation
of the function of the same name in the source.
-/

set_option linter.unusedVariables false

namespace LxdInventory

/-! ## Hostname sanitization (`_format_hostname`, lines 846-851)

The source applies `re.sub(r'[^a-zA-Z0-9.-]', '-', hostname)`, then
`re.sub(r'-+', '-', hostname).strip('-')`.  We embed the three passes
directly on `List Char`. -/

/-- Characters kept by the character class `[a-zA-Z0-9.-]`. -/
def isAllowedChar (c : Char) : Bool :=
  c.isAlpha || c.isDigit || c == '.' || c == '-'

/-- Embeds `re.sub(r'[^a-zA-Z0-9.-]', '-', hostname)`. -/
def replaceInvalidChars (l : List Char) : List Char :=
  l.map (fun c => if isAllowedChar c then c else '-')

/-- Embeds `re.sub(r'-+', '-', hostname)`: every maximal run of hyphens is
collapsed to a single hyphen. -/
def collapseHyphens : List Char → List Char
  | [] => []
  | [c] => [c]
  | c :: d :: rest =>
    if c == '-' && d == '-' then collapseHyphens (d :: rest)
    else c :: collapseHyphens (d :: rest)

/-- Test used by the embedding of `.strip('-')`. -/
def isHyphen (c : Char) : Bool := c == '-'

/-- Embeds `.strip('-')`: removes leading and trailing hyphens. -/
def stripHyphens (l : List Char) : List Char :=
  ((l.dropWhile isHyphen).reverse.dropWhile isHyphen).reverse

/-- Embeds the sanitization part of `_format_hostname`: replace characters
outside `[a-zA-Z0-9.-]` with `-`, collapse repeated `-`, trim `-` from both
ends. -/
def sanitizeHostname (s : String) : String :=
  String.mk (stripHyphens (collapseHyphens (replaceInvalidChars s.data)))

/-! ## Generic helpers: Python dicts as association lists, string splitting -/

/-- Lookup in an insertion-ordered association list (Python dict read). -/
def alookup {β : Type} : List (String × β) → String → Option β
  | [], _ => none
  | (k, v) :: rest, key => if k = key then some v else alookup rest key

/-- Python `key in dict`. -/
def containsKey {β : Type} (d : List (String × β)) (key : String) : Bool :=
  (alookup d key).isSome

/-- Python `dict[key] = v`: update in place if the key exists, else append. -/
def dictInsert {β : Type} (d : List (String × β)) (key : String) (v : β) : List (String × β) :=
  if containsKey d key then d.map (fun e => if e.1 = key then (e.1, v) else e)
  else d ++ [(key, v)]

/-- Core of Python `s.split(sep, 1)`: split at the first occurrence of the
separator, `none` when the separator does not occur. -/
def splitFirstOnAux (sep : List Char) : List Char → Option (List Char × List Char)
  | [] => none
  | c :: rest =>
    if sep.isPrefixOf (c :: rest) then some ([], (c :: rest).drop sep.length)
    else
      match splitFirstOnAux sep rest with
      | some (a, b) => some (c :: a, b)
      | none => none

/-- Python `s.split(sep, 1)` when the separator occurs (which the source
always guards with an `in` check); `none` models absence. -/
def splitFirstOn (sep : String) (s : String) : Option (String × String) :=
  match splitFirstOnAux sep.data s.data with
  | some (a, b) => some (String.mk a, String.mk b)
  | none => none

/-- Python substring test `needle in hay` for strings. -/
def containsSubAux (needle : List Char) : List Char → Bool
  | [] => needle.isEmpty
  | c :: rest => needle.isPrefixOf (c :: rest) || containsSubAux needle rest

/-- Python `needle in hay` (substring containment). -/
def containsSubstring (hay needle : String) : Bool :=
  containsSubAux needle.data hay.data

/-- Python truthiness of an optional string: `None` and `""` are falsy. -/
def pyTruthy : Option String → Bool
  | some s => !(s == "")
  | none => false

/-- Python `str.lower()` (character-wise, kernel-reducible). -/
def pyLower (s : String) : String := String.mk (s.data.map Char.toLower)

/-- Python `str.strip()` with no argument: remove leading and trailing
whitespace. -/
def pyStrip (s : String) : String :=
  String.mk (((s.data.dropWhile Char.isWhitespace).reverse.dropWhile Char.isWhitespace).reverse)

/-- Python `str.startswith(pre)`. -/
def pyStartsWith (s pre : String) : Bool := pre.data.isPrefixOf s.data

/-- Python `str.endswith(suf)`. -/
def pyEndsWith (s suf : String) : Bool := suf.data.reverse.isPrefixOf s.data.reverse

/-- Fuelled worker for `pySplit`; the fuel `l.length` bounds the number of
splits since the separator is nonempty in every use. -/
def pySplitAux (sep : List Char) : Nat → List Char → List (List Char)
  | 0, l => [l]
  | fuel + 1, l =>
    match splitFirstOnAux sep l with
    | some (a, b) => a :: pySplitAux sep fuel b
    | none => [l]

/-- Python `str.split(sep)` for a nonempty separator. -/
def pySplit (sep : String) (s : String) : List String :=
  (pySplitAux sep.data s.data.length s.data).map String.mk

/-! ## Tag predicates (`_parse_tag_filters`, lines 279-310)

A configured tag filter value is either the structured dictionary
`{'value': v|None, 'negate': bool}` or a plain YAML string (whose key may
carry a trailing `!=`); both shapes reach `_match_tag_filters`. -/

inductive TagSpec where
  | dict (value : Option String) (negate : Bool)
  | str (value : String)
  deriving DecidableEq

/-- Embeds `_parse_tag_filters`: `k=v`, `k!=v` and bare-key entries are
normalized into a dict keyed by the tag key. -/
def parseTagFilters (tagList : List String) : List (String × TagSpec) :=
  tagList.foldl (fun parsed tagFilter =>
    let tagFilter := pyStrip tagFilter
    if tagFilter == "" then parsed
    else
      match splitFirstOn "!=" tagFilter with
      | some (k, v) => dictInsert parsed (pyStrip k) (TagSpec.dict (some (pyStrip v)) true)
      | none =>
        match splitFirstOn "=" tagFilter with
        | some (k, v) => dictInsert parsed (pyStrip k) (TagSpec.dict (some (pyStrip v)) false)
        | none => dictInsert parsed tagFilter (TagSpec.dict none false)) []

/-! ## Data model: instances and resolved per-endpoint configuration

JSON dictionaries become association lists preserving insertion order; the
`isinstance` type guards of the source are rendered unnecessary by the
typed embedding.  `state`/`state.network` absence or non-dict shape is
collapsed into `network = none` (both make `_get_instance_ips` return
`(None, [])`). -/

structure Addr where
  scope : Option String
  family : Option String
  address : Option String
  deriving DecidableEq

structure Instance where
  name : String
  type : String
  status : String
  architecture : String
  profiles : List String
  config : List (String × String)
  expanded_config : List (String × String)
  network : Option (List (String × List Addr))
  lxd_project : String
  lxd_endpoint : String
  deriving DecidableEq

structure Filters where
  status : List String
  type : List String
  projects : List String
  profiles : List String
  ignore_interfaces : List String
  prefer_ipv6 : Bool
  exclude_names : List String
  exclude_projects : List String
  tags : List (String × TagSpec)
  deriving DecidableEq

structure EndpointConfig where
  name : String
  endpoint : String
  verify_ssl : Bool
  cert_path : Option String
  key_path : Option String
  ca_cert_path : Option String
  hostname_format : String
  filters : Filters
  deriving DecidableEq

/-! ## Config resolver (`_load_config` and helpers, lines 48-277)

YAML scalars that may be either a list or a comma-separated string are
modelled by `StrOrList`; CLI arguments are a record of optional strings and
flags, with Python string truthiness rendered by `cliStr`. -/

inductive StrOrList where
  | str (s : String)
  | list (l : List String)
  deriving DecidableEq

/-- Embeds `x if isinstance(x, list) else x.split(',')`. -/
def StrOrList.asList : StrOrList → List String
  | .str s => pySplit "," s
  | .list l => l

/-- Embeds `projects == 'all' or 'all' in projects` (membership for a list,
substring containment for a string). -/
def projectsAllCheck : StrOrList → Bool
  | .str s => s == "all" || containsSubstring s "all"
  | .list l => l.contains "all"

inductive TagsFragment where
  | dict (entries : List (String × TagSpec))
  | list (items : List String)
  | str (s : String)
  deriving DecidableEq

/-- Embeds the three accepted YAML encodings of `filters.tags`. -/
def TagsFragment.resolve : TagsFragment → List (String × TagSpec)
  | .dict entries => entries
  | .list items => parseTagFilters items
  | .str s => parseTagFilters [s]

structure FiltersFragment where
  status : Option StrOrList
  type : Option StrOrList
  projects : Option StrOrList
  profiles : Option StrOrList
  ignore_interfaces : Option StrOrList
  prefer_ipv6 : Option Bool
  exclude_names : Option StrOrList
  exclude_projects : Option StrOrList
  tags : Option TagsFragment
  deriving DecidableEq

def emptyFiltersFragment : FiltersFragment :=
  { status := none, type := none, projects := none, profiles := none,
    ignore_interfaces := none, prefer_ipv6 := none, exclude_names := none,
    exclude_projects := none, tags := none }

structure EndpointFragment where
  endpoint : Option String
  verify_ssl : Option Bool
  cert_path : Option String
  key_path : Option String
  ca_cert_path : Option String
  hostname_format : Option String
  filters : Option FiltersFragment
  deriving DecidableEq

structure GlobalDefaults where
  verify_ssl : Option Bool
  cert_path : Option String
  key_path : Option String
  ca_cert_path : Option String
  hostname_format : Option String
  filters : Option FiltersFragment
  deriving DecidableEq

structure Args where
  list : Bool
  instance_ : Option String
  endpoint : Option String
  status : Option String
  type : Option String
  project : Option String
  all_projects : Bool
  profile : Option String
  tag : Option String
  ignore_interface : Option String
  prefer_ipv6 : Bool
  deriving DecidableEq

/-- Python truthiness guard `self.args and self.args.x` for an optional
string argument: `None` and `""` both fail the guard. -/
def cliStr : Option String → Option String
  | some s => if s == "" then none else some s
  | none => none

/-- Embeds `type_map = {'vm': 'virtual-machine', 'lxc': 'container'}` with
`type_map.get(t, t)`. -/
def typeMap (t : String) : String :=
  if t == "vm" then "virtual-machine"
  else if t == "lxc" then "container"
  else t

/-- Embeds `_process_endpoint_config` (lines 135-277): per-field merge with
precedence CLI argument, then endpoint filters, then global filters, then
the built-in default. -/
def processEndpointConfig (args : Args) (endpointName : String)
    (endpointConfig : EndpointFragment) (globalDefaults : GlobalDefaults) : EndpointConfig :=
  let globalFilters := globalDefaults.filters.getD emptyFiltersFragment
  let endpointFilters := endpointConfig.filters.getD emptyFiltersFragment
  let status :=
    match cliStr args.status with
    | some s => (pySplit "," s).map (fun x => pyLower (pyStrip x))
    | none =>
      match endpointFilters.status with
      | some v => v.asList
      | none =>
        match globalFilters.status with
        | some v => v.asList
        | none => ["running", "stopped", "frozen", "error"]
  let type_ :=
    match cliStr args.type with
    | some s => ((pySplit "," s).map pyStrip).map typeMap
    | none =>
      match endpointFilters.type with
      | some v => v.asList
      | none =>
        match globalFilters.type with
        | some v => v.asList
        | none => ["container", "virtual-machine"]
  let projects :=
    if args.all_projects then ["all"]
    else
      match cliStr args.project with
      | some s => (pySplit "," s).map pyStrip
      | none =>
        match endpointFilters.projects with
        | some v => if projectsAllCheck v then ["all"] else v.asList
        | none =>
          match globalFilters.projects with
          | some v => if projectsAllCheck v then ["all"] else v.asList
          | none => ["default"]
  let profiles :=
    match cliStr args.profile with
    | some s => (pySplit "," s).map pyStrip
    | none =>
      match endpointFilters.profiles with
      | some v => v.asList
      | none =>
        match globalFilters.profiles with
        | some v => v.asList
        | none => []
  let ignoreInterfaces :=
    match cliStr args.ignore_interface with
    | some s => (pySplit "," s).map pyStrip
    | none =>
      match endpointFilters.ignore_interfaces with
      | some v => v.asList
      | none =>
        match globalFilters.ignore_interfaces with
        | some v => v.asList
        | none => ["lo", "docker0", "cilium_host", "cilium_vxlan", "cilium_net"]
  let preferIpv6 :=
    if args.prefer_ipv6 then true
    else
      match endpointFilters.prefer_ipv6 with
      | some b => b
      | none =>
        match globalFilters.prefer_ipv6 with
        | some b => b
        | none => false
  let excludeNames :=
    match endpointFilters.exclude_names with
    | some v => v.asList
    | none =>
      match globalFilters.exclude_names with
      | some v => v.asList
      | none => []
  let excludeProjects :=
    match endpointFilters.exclude_projects with
    | some v => v.asList
    | none =>
      match globalFilters.exclude_projects with
      | some v => v.asList
      | none => []
  let tags :=
    match cliStr args.tag with
    | some s => parseTagFilters (pySplit "," s)
    | none =>
      match endpointFilters.tags with
      | some tf => tf.resolve
      | none =>
        match globalFilters.tags with
        | some tf => tf.resolve
        | none => []
  { name := endpointName
    endpoint := endpointConfig.endpoint.getD "unix:///var/lib/lxd/unix.socket"
    verify_ssl := endpointConfig.verify_ssl.getD (globalDefaults.verify_ssl.getD false)
    cert_path := endpointConfig.cert_path.orElse (fun _ => globalDefaults.cert_path)
    key_path := endpointConfig.key_path.orElse (fun _ => globalDefaults.key_path)
    ca_cert_path := endpointConfig.ca_cert_path.orElse (fun _ => globalDefaults.ca_cert_path)
    hostname_format := endpointConfig.hostname_format.getD (globalDefaults.hostname_format.getD "{name}")
    filters :=
      { status := status, type := type_, projects := projects, profiles := profiles,
        ignore_interfaces := ignoreInterfaces, prefer_ipv6 := preferIpv6,
        exclude_names := excludeNames, exclude_projects := excludeProjects, tags := tags } }

/-- Fatal configuration error raised when CLI `--endpoint` requests names
absent from the configuration (`sys.exit(1)`, lines 85-88); it reports the
missing names and the available endpoint names. -/
structure ConfigError where
  missing : List String
  available : List String
  deriving DecidableEq

structure ResolvedConfig where
  endpoints : List (String × EndpointConfig)
  deriving DecidableEq

/-- Raw configuration tree as loaded from YAML.  `lxd_endpoints = none`
models a configuration without the `lxd_endpoints` key (including the
empty configuration `{}`). -/
structure ConfigData where
  global_defaults : Option GlobalDefaults
  lxd_endpoints : Option (List (String × EndpointFragment))

/-- Endpoint mapping produced before the CLI `--endpoint` restriction in
`_process_multi_endpoint_config` (lines 68-71). -/
def baseEndpoints (args : Args) (cd : ConfigData) : List (String × EndpointConfig) :=
  (cd.lxd_endpoints.getD []).map
    (fun e => (e.1, processEndpointConfig args e.1 e.2 (cd.global_defaults.getD
      { verify_ssl := none, cert_path := none, key_path := none, ca_cert_path := none,
        hostname_format := none, filters := none })))

/-- Comma-separated CLI endpoint names, each stripped (line 76). -/
def requestedEndpoints (s : String) : List String :=
  (pySplit "," s).map pyStrip

/-- Embeds `_process_multi_endpoint_config` (lines 61-100): build every
endpoint configuration, then restrict to the CLI-requested names, failing
when a requested name is unknown. -/
def processMultiEndpointConfig (args : Args) (cd : ConfigData) :
    Except ConfigError ResolvedConfig :=
  let endpoints := baseEndpoints args cd
  match cliStr args.endpoint with
  | none => Except.ok { endpoints := endpoints }
  | some s =>
    let requested := requestedEndpoints s
    let available := endpoints.map Prod.fst
    let missing := requested.filter (fun n => !(containsKey endpoints n))
    if missing.isEmpty then
      Except.ok { endpoints :=
        requested.foldl (fun acc n =>
          match alookup endpoints n with
          | some v => dictInsert acc n v
          | none => acc) [] }
    else Except.error { missing := missing, available := available }

/-- Embeds `_get_default_config` (lines 102-133): the synthetic `default`
endpoint built from hard-coded defaults when no configuration is present. -/
def getDefaultConfig (args : Args) : ResolvedConfig :=
  let globalDefaults : GlobalDefaults :=
    { verify_ssl := some false, cert_path := none, key_path := none, ca_cert_path := none,
      hostname_format := none,
      filters := some
        { status := some (StrOrList.list ["running", "stopped", "frozen", "error"])
          type := some (StrOrList.list ["container", "virtual-machine"])
          projects := some (StrOrList.list ["all"])
          profiles := some (StrOrList.list [])
          ignore_interfaces := some (StrOrList.list
            ["lo", "docker0", "cilium_host", "cilium_vxlan", "cilium_net"])
          prefer_ipv6 := some false
          exclude_names := some (StrOrList.list [])
          exclude_projects := some (StrOrList.list [])
          tags := some (TagsFragment.dict []) } }
  let endpointConfig : EndpointFragment :=
    { endpoint := some "unix:///var/lib/lxd/unix.socket", verify_ssl := none,
      cert_path := none, key_path := none, ca_cert_path := none,
      hostname_format := none, filters := none }
  { endpoints := [("default", processEndpointConfig args "default" endpointConfig globalDefaults)] }

/-- Embeds `_load_config` (lines 48-59): the multi-endpoint path is taken
exactly when the configuration tree contains `lxd_endpoints`; otherwise the
hard-coded default configuration is used. -/
def loadConfig (args : Args) (cd : ConfigData) : Except ConfigError ResolvedConfig :=
  if cd.lxd_endpoints.isSome then processMultiEndpointConfig args cd
  else Except.ok (getDefaultConfig args)

/-! ## Filter pipeline (`_filter_instance` and helpers, lines 590-740)

The Python `re` engine is an external collaborator: it is passed in as
`reMatch : String → String → Option Bool`, where `reMatch pattern s` is
`re.match(pattern, s)` viewed as a Boolean and `none` models a `re.error`
raised for an invalid pattern (the source skips such patterns with a
warning). -/

/-- Embeds `_should_exclude_project` (lines 452-488). -/
def shouldExcludeProject (reMatch : String → String → Option Bool)
    (projectName endpointName : String) (excludeProjects : List String) : Bool :=
  if excludeProjects.isEmpty then false
  else excludeProjects.any (fun excludePattern =>
    let p := pyStrip excludePattern
    if p == "" then false
    else if pyStartsWith p "regex:" then
      match reMatch (p.drop 6) projectName with
      | some b => b
      | none => false
    else p == projectName)

/-- Body of the pattern loop of `_should_exclude_instance` (lines 638-679):
whether one `exclude_names` pattern matches the given instance name and
project. -/
def excludeNameMatch (reMatch : String → String → Option Bool)
    (instanceName instanceProject : String) (excludePattern : String) : Bool :=
  let p := pyStrip excludePattern
  if p == "" then false
  else if pyStartsWith p "regex:" then
    let regexPattern := p.drop 6
    match splitFirstOn "/" regexPattern with
    | some (patternProject, pattern) =>
      if !(patternProject == instanceProject) then false
      else
        match reMatch pattern instanceName with
        | some b => b
        | none => false
    | none =>
      match reMatch regexPattern instanceName with
      | some b => b
      | none => false
  else
    match splitFirstOn "/" p with
    | some (patternProject, patternName) =>
      patternProject == instanceProject && patternName == instanceName
    | none => p == instanceName

/-- Embeds `_should_exclude_instance` (lines 623-681): the first matching
pattern excludes the instance. -/
def shouldExcludeInstance (reMatch : String → String → Option Bool)
    (inst : Instance) (excludeNames : List String) : Bool :=
  if excludeNames.isEmpty then false
  else excludeNames.any (excludeNameMatch reMatch inst.name inst.lxd_project)

/-- One predicate of `_match_tag_filters` (lines 689-738): `false` means the
instance is excluded by this tag filter. -/
def matchTagOne (inst : Instance) (tagKey : String) (spec : TagSpec) : Bool :=
  let resolved :=
    match spec with
    | .dict v n => (v, n, tagKey)
    | .str v =>
      if pyEndsWith tagKey "!=" then (some v, true, tagKey.dropRight 2)
      else (some v, false, tagKey)
  match resolved with
  | (expectedValue, negate, actualTagKey) =>
    match expectedValue with
    | none =>
      let keyExists :=
        containsKey inst.expanded_config actualTagKey || containsKey inst.config actualTagKey
      if negate then !keyExists else keyExists
    | some ev =>
      let actualValue :=
        match alookup inst.expanded_config actualTagKey with
        | some v => some v
        | none => alookup inst.config actualTagKey
      if negate then !(actualValue == some ev) else actualValue == some ev

/-- Embeds `_match_tag_filters` (lines 683-740): the loop returns `False` on
the first failing predicate, i.e. all predicates must hold. -/
def matchTagFilters (inst : Instance) (tagFilters : List (String × TagSpec)) : Bool :=
  tagFilters.all (fun e => matchTagOne inst e.1 e.2)

/-- Embeds `_filter_instance` (lines 590-621): status, type, profile,
name-exclusion and tag predicates in order, short-circuiting on failure. -/
def filterInstance (reMatch : String → String → Option Bool)
    (inst : Instance) (cfg : EndpointConfig) : Bool :=
  let filters := cfg.filters
  let statusFilter := filters.status.map (fun s => pyStrip (pyLower s))
  if !statusFilter.isEmpty && !statusFilter.contains "all" &&
      !statusFilter.contains (pyLower inst.status) then false
  else if !filters.type.isEmpty && !filters.type.contains "all" &&
      !filters.type.contains inst.type then false
  else if !filters.profiles.isEmpty &&
      !(filters.profiles.any (fun p => inst.profiles.contains p)) then false
  else if shouldExcludeInstance reMatch inst filters.exclude_names then false
  else if !filters.tags.isEmpty && !matchTagFilters inst filters.tags then false
  else true

/-! ## Address resolver (`_get_instance_ips`, lines 742-828) -/

/-- Candidate collection for one interface: global-scope addresses bucketed
by family in first-seen order, paired with the interface name. -/
def collectAddrsOnIface (iface : String) : List Addr →
    List (String × String) × List (String × String)
  | [] => ([], [])
  | addr :: rest =>
    let acc := collectAddrsOnIface iface rest
    if !(addr.scope == some "global") then acc
    else if addr.family == some "inet" && pyTruthy addr.address then
      ((addr.address.getD "", iface) :: acc.1, acc.2)
    else if addr.family == some "inet6" && pyTruthy addr.address then
      (acc.1, (addr.address.getD "", iface) :: acc.2)
    else acc

/-- Candidate collection over the interface map, skipping ignored
interfaces (lines 760-791). -/
def collectIPs (ignoreInterfaces : List String) :
    List (String × List Addr) → List (String × String) × List (String × String)
  | [] => ([], [])
  | (ifaceName, addrs) :: rest =>
    if ignoreInterfaces.contains ifaceName then collectIPs ignoreInterfaces rest
    else
      let here := collectAddrsOnIface ifaceName addrs
      let there := collectIPs ignoreInterfaces rest
      (here.1 ++ there.1, here.2 ++ there.2)

/-- Embeds `_get_instance_ips` (lines 742-828): primary address by family
preference with cross-family fallback, and the full preference-ordered
address list. -/
def getInstanceIps (inst : Instance) (cfg : EndpointConfig) : Option String × List String :=
  match inst.network with
  | none => (none, [])
  | some network =>
    let filters := cfg.filters
    let buckets := collectIPs filters.ignore_interfaces network
    let ipv4Addresses := buckets.1
    let ipv6Addresses := buckets.2
    let primaryIp :=
      if filters.prefer_ipv6 then
        match ipv6Addresses with
        | (ip, _) :: _ => some ip
        | [] =>
          match ipv4Addresses with
          | (ip, _) :: _ => some ip
          | [] => none
      else
        match ipv4Addresses with
        | (ip, _) :: _ => some ip
        | [] =>
          match ipv6Addresses with
          | (ip, _) :: _ => some ip
          | [] => none
    let allIps :=
      if filters.prefer_ipv6 then ipv6Addresses.map Prod.fst ++ ipv4Addresses.map Prod.fst
      else ipv4Addresses.map Prod.fst ++ ipv6Addresses.map Prod.fst
    (primaryIp, allIps)

/-! ## Hostname resolver (`_format_hostname`, lines 830-857, and the
collision loop of `_generate_inventory`, lines 896-906) -/

inductive FormatError where
  | keyError
  | valueError
  deriving DecidableEq

def lbrace : Char := Char.ofNat 123

def rbrace : Char := Char.ofNat 125

/-- Scanner state for the embedding of Python `str.format`: copying
literal text, just after an opening brace, just after a closing brace, or
accumulating a placeholder name. -/
inductive FormatMode where
  | copy
  | opened
  | closing
  | name (acc : List Char)
  deriving DecidableEq

/-- One-pass worker embedding Python `str.format` for plain named
placeholders: a doubled brace is an escaped brace, `{name}` is substituted
from the variable map (`keyError` for an unknown name, `valueError` for a
lone or unmatched brace — each error makes `formatHostname` fall back to
the raw instance name). -/
def pyFormatAux (vars : List (String × String)) :
    List Char → FormatMode → Except FormatError (List Char)
  | [], FormatMode.copy => Except.ok []
  | [], _ => Except.error FormatError.valueError
  | c :: rest, FormatMode.copy =>
    if c = lbrace then pyFormatAux vars rest FormatMode.opened
    else if c = rbrace then pyFormatAux vars rest FormatMode.closing
    else
      match pyFormatAux vars rest FormatMode.copy with
      | Except.ok out => Except.ok (c :: out)
      | Except.error e => Except.error e
  | c :: rest, FormatMode.opened =>
    if c = lbrace then
      match pyFormatAux vars rest FormatMode.copy with
      | Except.ok out => Except.ok (lbrace :: out)
      | Except.error e => Except.error e
    else if c = rbrace then Except.error FormatError.keyError
    else pyFormatAux vars rest (FormatMode.name [c])
  | c :: rest, FormatMode.closing =>
    if c = rbrace then
      match pyFormatAux vars rest FormatMode.copy with
      | Except.ok out => Except.ok (rbrace :: out)
      | Except.error e => Except.error e
    else Except.error FormatError.valueError
  | c :: rest, FormatMode.name acc =>
    if c = rbrace then
      match alookup vars (String.mk acc.reverse) with
      | none => Except.error FormatError.keyError
      | some v =>
        match pyFormatAux vars rest FormatMode.copy with
        | Except.ok out => Except.ok (v.data ++ out)
        | Except.error e => Except.error e
    else pyFormatAux vars rest (FormatMode.name (c :: acc))

/-- Embeds `_format_hostname` (lines 830-857): substitute the template
variables, sanitize on success, fall back to the raw instance name on a
`KeyError` or any other formatting error. -/
def formatHostname (inst : Instance) (cfg : EndpointConfig) : String :=
  let fmtVars := [("name", inst.name), ("project", inst.lxd_project),
    ("endpoint", inst.lxd_endpoint), ("type", inst.type), ("status", pyLower inst.status)]
  match pyFormatAux fmtVars cfg.hostname_format.data FormatMode.copy with
  | Except.ok out => sanitizeHostname (String.mk out)
  | Except.error _ => inst.name

/-- Embeds the collision loop of `_generate_inventory` (lines 899-906):
while the candidate exists among the accumulated hostnames, retry with
suffixes `-1`, `-2`, …; after the counter passes 100 the last-tried name is
accepted even if it still collides. -/
def resolveHostnameAux (taken : List String) (orig : String) :
    Nat → String → Nat → String
  | remaining, formatted, counter =>
    if formatted ∈ taken then
      let next := orig ++ "-" ++ toString counter
      match remaining with
      | 0 => next
      | r + 1 => resolveHostnameAux taken orig r next (counter + 1)
    else formatted

/-- Collision resolution starting from the formatted hostname (line 900:
`counter = 1`; the loop bound `counter > 100` is rendered structurally by
the remaining-iterations counter `remaining = 100 - counter`). -/
def resolveHostname (taken : List String) (orig : String) : String :=
  resolveHostnameAux taken orig 99 orig 1

/-! ## Instance collector (`_get_instances`, lines 490-588)

`_make_request` is the opaque fetch primitive; its decoded responses are
supplied by a `FetchEnv`.  A `/projects` response is either a URL list
(`recursion=0`) or a dictionary keyed by project name; `{}` returned on a
fetch error is represented as an empty dictionary.  The `try/except` arms
of the source only catch exceptions that the embedded, total fetch model
cannot produce. -/

inductive ProjectsResp where
  | list (items : List String)
  | dict (ks : List String)
  deriving DecidableEq

/-- Python falsiness of a projects response (`if not projects_data`). -/
def respFalsy : ProjectsResp → Bool
  | .list items => items.isEmpty
  | .dict ks => ks.isEmpty

/-- Embeds `[url.split('/')[-1] for url in projects_data if '/projects/' in url]`
(line 521). -/
def parseProjectUrls (urls : List String) : List String :=
  (urls.filter (fun u => containsSubstring u "/projects/")).map
    (fun u => ((pySplit "/" u).getLast?).getD "")

/-- Decoded fetch responses for one endpoint: the two `/projects` request
shapes and the per-project `/instances?recursion=2` result. -/
structure FetchEnv where
  projectsRec0 : ProjectsResp
  projectsPlain : ProjectsResp
  instancesOf : String → List Instance

/-- Embeds lines 577-579: stamp an instance with its project and endpoint. -/
def stampInstance (project endpointName : String) (inst : Instance) : Instance :=
  { inst with lxd_project := project, lxd_endpoint := endpointName }

/-- Embeds `_get_instances` (lines 490-588): resolve the target project set
(discovering all projects when requested), drop excluded projects, then
collect and stamp the instances of each remaining project. -/
def getInstances (reMatch : String → String → Option Bool) (env : FetchEnv)
    (cfg : EndpointConfig) : List Instance :=
  let projects := cfg.filters.projects
  let endpointName := cfg.name
  let excludeProjects := cfg.filters.exclude_projects
  let resolved : Option (List String) :=
    if projects.contains "all" then
      if respFalsy env.projectsRec0 then none
      else
        let discovered :=
          match env.projectsRec0 with
          | ProjectsResp.list urls => parseProjectUrls urls
          | ProjectsResp.dict _ =>
            match env.projectsPlain with
            | ProjectsResp.dict ks => ks
            | ProjectsResp.list urls => parseProjectUrls urls
        some (if discovered.isEmpty then ["default"] else discovered)
    else some projects
  match resolved with
  | none => []
  | some ps =>
    let ps :=
      if !excludeProjects.isEmpty then
        ps.filter (fun p => !(shouldExcludeProject reMatch p endpointName excludeProjects))
      else ps
    if !excludeProjects.isEmpty && ps.isEmpty then []
    else ps.flatMap (fun project =>
      (env.instancesOf project).map (stampInstance project endpointName))

/-! ## Inventory assembler (`_generate_inventory`, lines 859-984)

The groups dictionary and the hostvars dictionary are association lists in
insertion order.  The `assigned` component of the fold state is a ghost
history recording every finally-chosen hostname in processing order (with
multiplicity); it influences nothing else and exists so that theorems can
speak about collision-free runs. -/

structure HostVars where
  lxd_name : String
  lxd_hostname : String
  lxd_type : String
  lxd_status : String
  lxd_architecture : String
  lxd_profiles : List String
  lxd_project : String
  lxd_endpoint : String
  lxd_endpoint_url : String
  ansible_host : Option String
  lxd_ip : Option (List String)
  lxd_config : Option (List (String × String))
  lxd_expanded_config : Option (List (String × String))
  deriving DecidableEq

/-- Embeds the host-variable record construction (lines 946-976), including
Python truthiness of `primary_ip`, `all_ips`, `config` and
`expanded_config`. -/
def mkHostvars (endpointName : String) (cfg : EndpointConfig) (inst : Instance)
    (formattedHostname : String) : HostVars :=
  let ips := getInstanceIps inst cfg
  let primaryIp := ips.1
  let allIps := ips.2
  { lxd_name := inst.name
    lxd_hostname := formattedHostname
    lxd_type := inst.type
    lxd_status := inst.status
    lxd_architecture := inst.architecture
    lxd_profiles := inst.profiles
    lxd_project := inst.lxd_project
    lxd_endpoint := inst.lxd_endpoint
    lxd_endpoint_url := cfg.endpoint
    ansible_host := if pyTruthy primaryIp then primaryIp else none
    lxd_ip :=
      if !allIps.isEmpty then some allIps
      else if pyTruthy primaryIp then some [primaryIp.getD ""]
      else none
    lxd_config := if !inst.config.isEmpty then some inst.config else none
    lxd_expanded_config := if !inst.expanded_config.isEmpty then some inst.expanded_config else none }

/-- Appends a hostname to an existing group (`groups[g]['hosts'].append(h)`).
The source only calls this for groups already present in the dictionary. -/
def appendToGroup (groups : List (String × List String)) (g h : String) :
    List (String × List String) :=
  groups.map (fun e => if e.1 = g then (e.1, e.2 ++ [h]) else e)

/-- Embeds `if group_name not in groups: groups[group_name] = {'hosts': []}`. -/
def ensureGroup (groups : List (String × List String)) (g : String) :
    List (String × List String) :=
  if containsKey groups g then groups else groups ++ [(g, [])]

/-- Embeds `groups[g] = {'hosts': []}` (dictionary assignment). -/
def setGroup (groups : List (String × List String)) (g : String) :
    List (String × List String) :=
  if containsKey groups g then groups.map (fun e => if e.1 = g then (e.1, []) else e)
  else groups ++ [(g, [])]

/-- Hosts of a group, empty for an absent group. -/
def groupHosts (groups : List (String × List String)) (g : String) : List String :=
  (alookup groups g).getD []

/-- The seven statically created groups (lines 868-876), in insertion order. -/
def initialGroups : List (String × List String) :=
  [("all", []), ("lxd_containers", []), ("lxd_vms", []), ("lxd_running", []),
   ("lxd_stopped", []), ("lxd_frozen", []), ("lxd_error", [])]

/-- Embeds the type-group update (lines 914-918). -/
def addTypeGroup (type_ : String) (hn : String)
    (groups : List (String × List String)) : List (String × List String) :=
  if type_ == "container" then appendToGroup groups "lxd_containers" hn
  else if type_ == "virtual-machine" then appendToGroup groups "lxd_vms" hn
  else groups

/-- Embeds the status-group update (lines 920-929): the lower-cased status
selects at most one of the four status groups. -/
def addStatusGroup (status : String) (hn : String)
    (groups : List (String × List String)) : List (String × List String) :=
  if status == "running" then appendToGroup groups "lxd_running" hn
  else if status == "stopped" then appendToGroup groups "lxd_stopped" hn
  else if status == "frozen" then appendToGroup groups "lxd_frozen" hn
  else if status == "error" then appendToGroup groups "lxd_error" hn
  else groups

/-- Embeds the profile-group updates (lines 931-936). -/
def addProfileGroups (profiles : List String) (hn : String)
    (groups : List (String × List String)) : List (String × List String) :=
  profiles.foldl (fun gs profile =>
    appendToGroup (ensureGroup gs ("lxd_profile_" ++ profile)) ("lxd_profile_" ++ profile) hn) groups

/-- Embeds the project-group update (lines 938-943). -/
def addProjectGroup (project : String) (hn : String)
    (groups : List (String × List String)) : List (String × List String) :=
  appendToGroup (ensureGroup groups ("lxd_project_" ++ project)) ("lxd_project_" ++ project) hn

/-- Group updates for one included instance (lines 910-943): `all`, the
endpoint group, the type group, the status group, the profile groups and
the project group. -/
def addInstanceGroups (endpointGroupName : String) (inst : Instance) (hn : String)
    (groups : List (String × List String)) : List (String × List String) :=
  let groups := appendToGroup groups "all" hn
  let groups := appendToGroup groups endpointGroupName hn
  let groups := addTypeGroup inst.type hn groups
  let groups := addStatusGroup (pyLower inst.status) hn groups
  let groups := addProfileGroups inst.profiles hn groups
  addProjectGroup inst.lxd_project hn groups

/-- Fold state of `_generate_inventory`: accumulated hostvars, groups and
the ghost list of assigned hostnames. -/
structure InvState where
  hostvars : List (String × HostVars)
  groups : List (String × List String)
  assigned : List String

/-- Embeds the per-instance body of `_generate_inventory` (lines 889-978):
filter, format and collision-resolve the hostname, update groups, record
host variables. -/
def processInstance (reMatch : String → String → Option Bool) (endpointName : String)
    (cfg : EndpointConfig) (endpointGroupName : String) (st : InvState)
    (inst : Instance) : InvState :=
  if !filterInstance reMatch inst cfg then st
  else
    let hn := resolveHostname (st.hostvars.map Prod.fst) (formatHostname inst cfg)
    { hostvars := dictInsert st.hostvars hn (mkHostvars endpointName cfg inst hn)
      groups := addInstanceGroups endpointGroupName inst hn st.groups
      assigned := st.assigned ++ [hn] }

/-- Embeds the per-endpoint body of `_generate_inventory` (lines 879-978):
create the endpoint group, fetch the instances and process each in order. -/
def processEndpoint (reMatch : String → String → Option Bool)
    (fetch : EndpointConfig → FetchEnv) (st : InvState)
    (ep : String × EndpointConfig) : InvState :=
  let endpointGroupName := "lxd_endpoint_" ++ ep.1
  let st' : InvState := { st with groups := setGroup st.groups endpointGroupName }
  (getInstances reMatch (fetch ep.2) ep.2).foldl
    (processInstance reMatch ep.1 ep.2 endpointGroupName) st'

/-- The fold of `_generate_inventory` over all endpoints, before empty
groups are dropped. -/
def generateInventoryState (reMatch : String → String → Option Bool)
    (fetch : EndpointConfig → FetchEnv)
    (endpoints : List (String × EndpointConfig)) : InvState :=
  endpoints.foldl (processEndpoint reMatch fetch)
    { hostvars := [], groups := initialGroups, assigned := [] }

/-- Final inventory: `_meta.hostvars` plus the groups with at least one
host (lines 980-984 drop empty groups). -/
structure Inventory where
  hostvars : List (String × HostVars)
  groups : List (String × List String)
  deriving DecidableEq

/-- Embeds `_generate_inventory` (lines 859-984). -/
def generateInventory (reMatch : String → String → Option Bool)
    (fetch : EndpointConfig → FetchEnv)
    (endpoints : List (String × EndpointConfig)) : Inventory :=
  let st := generateInventoryState reMatch fetch endpoints
  { hostvars := st.hostvars, groups := st.groups.filter (fun e => !e.2.isEmpty) }

/-! ## Spec-side definitions (statements compare the embedding against
these renderings of the specification text) and named predicates -/

/-- Predicate used by the sanitization proofs: no two adjacent hyphens. -/
def noDoubleHyphen : List Char → Bool
  | c :: d :: rest => !(c == '-' && d == '-') && noDoubleHyphen (d :: rest)
  | _ => true

/-- Spec rendering of primary-address selection: the first address of the
preferred family, falling back to the first of the other family, `none`
when both buckets are empty. -/
def specPreferredFirst (prefer6 : Bool) (v4 v6 : List String) : Option String :=
  if prefer6 then
    match v6.head? with
    | some a => some a
    | none => v4.head?
  else
    match v4.head? with
    | some a => some a
    | none => v6.head?

/-- IPv4 candidate bucket of an instance (with interface names). -/
def ipv4Bucket (inst : Instance) (cfg : EndpointConfig) : List (String × String) :=
  match inst.network with
  | none => []
  | some nw => (collectIPs cfg.filters.ignore_interfaces nw).1

/-- IPv6 candidate bucket of an instance (with interface names). -/
def ipv6Bucket (inst : Instance) (cfg : EndpointConfig) : List (String × String) :=
  match inst.network with
  | none => []
  | some nw => (collectIPs cfg.filters.ignore_interfaces nw).2

/-- A tag key counts as present when it occurs in `expanded_config` or in
`config`. -/
def keyPresent (inst : Instance) (k : String) : Bool :=
  containsKey inst.expanded_config k || containsKey inst.config k

/-- The four status groups with the (lower-cased) status each holds. -/
def statusGroupPairs : List (String × String) :=
  [("lxd_running", "running"), ("lxd_stopped", "stopped"),
   ("lxd_frozen", "frozen"), ("lxd_error", "error")]

/-- Status-group membership matches the recorded `lxd_status` exactly
(case-insensitively), for each of the four status groups. -/
def statusGroupsExact (hostvars : List (String × HostVars))
    (groups : List (String × List String)) : Prop :=
  ∀ gp ∈ statusGroupPairs, ∀ h,
    h ∈ groupHosts groups gp.1 ↔
      ∃ hv, alookup hostvars h = some hv ∧ pyLower hv.lxd_status = gp.2

/-! ## Concrete inputs for the specification scenarios -/

/-- Regex engine stub for scenarios whose patterns never fire. -/
def reMatchNever : String → String → Option Bool := fun _ _ => some false

/-- CLI argument record with nothing set (a bare `--list` run). -/
def argsNone : Args :=
  { list := true, instance_ := none, endpoint := none, status := none, type := none,
    project := none, all_projects := false, profile := none, tag := none,
    ignore_interface := none, prefer_ipv6 := false }

/-- The empty configuration tree (no config file found). -/
def emptyConfigData : ConfigData := { global_defaults := none, lxd_endpoints := none }

/-- The fully-resolved filter block produced by the hard-coded defaults. -/
def defaultResolvedFilters : Filters :=
  { status := ["running", "stopped", "frozen", "error"]
    type := ["container", "virtual-machine"]
    projects := ["all"]
    profiles := []
    ignore_interfaces := ["lo", "docker0", "cilium_host", "cilium_vxlan", "cilium_net"]
    prefer_ipv6 := false
    exclude_names := []
    exclude_projects := []
    tags := [] }

/-- The fully-resolved synthetic `default` endpoint produced with no
configuration and no CLI overrides. -/
def defaultEndpointConfig : EndpointConfig :=
  { name := "default", endpoint := "unix:///var/lib/lxd/unix.socket", verify_ssl := false,
    cert_path := none, key_path := none, ca_cert_path := none,
    hostname_format := "{name}", filters := defaultResolvedFilters }

/-- Minimal scenario instance: a running container with no addresses. -/
def mkTestInstance (name status : String) : Instance :=
  { name := name, type := "container", status := status, architecture := "x86_64",
    profiles := [], config := [], expanded_config := [], network := none,
    lxd_project := "default", lxd_endpoint := "" }

/-- Scenario endpoint configuration with the given project list. -/
def cfgScenario (projects : List String) : EndpointConfig :=
  { defaultEndpointConfig with
    name := "ep",
    filters := { defaultResolvedFilters with projects := projects } }

/-- Fetch environment returning the given instances per project and no
projects listing. -/
def fetchOf (instOf : String → List Instance) : EndpointConfig → FetchEnv :=
  fun _ => { projectsRec0 := ProjectsResp.list [], projectsPlain := ProjectsResp.list [],
             instancesOf := instOf }

/-- C1 scenario: one endpoint, two projects each holding an instance named
`web`, and the project-ignoring default template. -/
def c1Endpoints : List (String × EndpointConfig) := [("ep", cfgScenario ["p1", "p2"])]

def c1Fetch : EndpointConfig → FetchEnv :=
  fetchOf (fun p => if p == "p1" || p == "p2" then [mkTestInstance "web" "Running"] else [])

def c1Inventory : Inventory := generateInventory reMatchNever c1Fetch c1Endpoints

/-- C2 counterexample: 101 running instances occupying the names `a`,
`a-1`, …, `a-100`, then one stopped instance named `a` that exhausts the
100-suffix collision cap and is accepted under the colliding name `a-100`. -/
def c2CapInstances : List Instance :=
  ((List.range 101).map (fun i =>
    mkTestInstance (if i == 0 then "a" else "a-" ++ toString i) "Running")) ++
  [mkTestInstance "a" "Stopped"]

def c2Endpoints : List (String × EndpointConfig) := [("ep", cfgScenario ["p"])]

def c2Fetch : EndpointConfig → FetchEnv :=
  fetchOf (fun p => if p == "p" then c2CapInstances else [])

def c2Inventory : Inventory := generateInventory reMatchNever c2Fetch c2Endpoints

/-- C3 scenario instance: only an `inet6` global address `fd00::1` on
`eth0`. -/
def c3Instance : Instance :=
  { mkTestInstance "web1" "Running" with
    network := some
      [("eth0", [{ scope := some "global", family := some "inet6", address := some "fd00::1" }])] }

def c3Config : EndpointConfig := cfgScenario ["default"]

/-- C7 scenario fetch environment: a URL-list `/projects` response naming
`default` and `staging`. -/
def c7Env (instOf : String → List Instance) : FetchEnv :=
  { projectsRec0 := ProjectsResp.list ["/1.0/projects/default", "/1.0/projects/staging"]
    projectsPlain := ProjectsResp.dict []
    instancesOf := instOf }

/-- C7 scenario endpoint configuration: all projects, excluding
`regex:^stag.*`. -/
def c7Config : EndpointConfig :=
  { defaultEndpointConfig with
    name := "ep",
    filters := { defaultResolvedFilters with
                 projects := ["all"],
                 exclude_projects := ["regex:^stag.*"] } }

/-- Concrete regex engine fragment sufficient for the C7 scenario: the
pattern `^stag.*` matched (prefix-anchored) against a project name. -/
def c7ReMatch : String → String → Option Bool :=
  fun pat s => some (pat == "^stag.*" && pyStartsWith s "stag")

/-- C6 witness inputs: a multi-endpoint configuration with two endpoints. -/
def c6EmptyFragment : EndpointFragment :=
  { endpoint := some "https://lxd1:8443", verify_ssl := none, cert_path := none,
    key_path := none, ca_cert_path := none, hostname_format := none, filters := none }

def c6ConfigData : ConfigData :=
  { global_defaults := none,
    lxd_endpoints := some [("production", c6EmptyFragment), ("development", c6EmptyFragment)] }

def c6Args : Args := { argsNone with endpoint := some "production" }

def c6ArgsMissing : Args := { argsNone with endpoint := some "staging" }

/-- Invariant carried through the inventory-generation fold for the
status-group analysis: the four status groups exist, every hostvars key was
assigned at some point, group keys are duplicate-free, and status-group
membership matches the recorded statuses. -/
def c2Invariant (st : InvState) : Prop :=
  (∀ gp ∈ statusGroupPairs, containsKey st.groups gp.1 = true) ∧
  (∀ k, containsKey st.hostvars k = true → k ∈ st.assigned) ∧
  (st.groups.map Prod.fst).Nodup ∧
  statusGroupsExact st.hostvars st.groups

/-! ### Facts about sanitization used for the idempotence proof -/

theorem mem_replaceInvalidChars {l : List Char} {c : Char}
    (h : c ∈ replaceInvalidChars l) : isAllowedChar c = true := by
  unfold replaceInvalidChars at h
  rcases List.mem_map.mp h with ⟨a, _, rfl⟩
  by_cases ha : isAllowedChar a = true
  · simp [ha]
  · simp only [ha]
    simp [isAllowedChar]

theorem replaceInvalidChars_eq_self {l : List Char}
    (h : ∀ c ∈ l, isAllowedChar c = true) : replaceInvalidChars l = l := by
  unfold replaceInvalidChars
  induction l with
  | nil => rfl
  | cons c rest ih =>
    simp only [List.map_cons, h c (List.mem_cons_self c rest), if_pos, List.cons.injEq, true_and]
    exact ih (fun x hx => h x (List.mem_cons_of_mem _ hx))

theorem collapseHyphens_sublist (l : List Char) : List.Sublist (collapseHyphens l) l := by
  induction l with
  | nil => simp [collapseHyphens]
  | cons c rest ih =>
    cases rest with
    | nil => simp [collapseHyphens]
    | cons d rest2 =>
      by_cases h : (c == '-' && d == '-') = true
      · simp only [collapseHyphens, h, if_pos]
        exact List.Sublist.cons c ih
      · simp only [collapseHyphens, h, if_neg, Bool.false_eq_true, not_false_iff]
        exact List.Sublist.cons₂ c ih

theorem collapseHyphens_cons_head (l : List Char) (d : Char) :
    (collapseHyphens (d :: l)).head? = some d := by
  induction l generalizing d with
  | nil => simp [collapseHyphens]
  | cons e rest ih =>
    by_cases h : d == '-' && e == '-'
    · have hd : d = '-' := by
        have := (Bool.and_eq_true _ _).mp h
        exact eq_of_beq this.1
      have he : e = '-' := by
        have := (Bool.and_eq_true _ _).mp h
        exact eq_of_beq this.2
      simp only [collapseHyphens, h, if_pos]
      rw [ih e, hd, he]
    · simp [collapseHyphens, h]

theorem noDoubleHyphen_collapseHyphens (l : List Char) :
    noDoubleHyphen (collapseHyphens l) = true := by
  induction l with
  | nil => simp [collapseHyphens, noDoubleHyphen]
  | cons c rest ih =>
    cases rest with
    | nil => simp [collapseHyphens, noDoubleHyphen]
    | cons d rest2 =>
      by_cases h : c == '-' && d == '-'
      · simpa [collapseHyphens, h] using ih
      · simp only [collapseHyphens, h, if_neg, Bool.false_eq_true, not_false_iff]
        have hhead := collapseHyphens_cons_head rest2 d
        cases hx : collapseHyphens (d :: rest2) with
        | nil => simp [noDoubleHyphen]
        | cons x xs =>
          have hxd : x = d := by
            rw [hx] at hhead
            simpa using hhead
          rw [hx] at ih
          have hfalse : (c == '-' && x == '-') = false := by
            rw [hxd]
            exact Bool.eq_false_iff.mpr h
          simp only [noDoubleHyphen]
          rw [ih, hfalse]
          rfl

theorem collapseHyphens_eq_self {l : List Char}
    (h : noDoubleHyphen l = true) : collapseHyphens l = l := by
  induction l with
  | nil => simp [collapseHyphens]
  | cons c rest ih =>
    cases rest with
    | nil => simp [collapseHyphens]
    | cons d rest2 =>
      have h1 : ¬(c == '-' && d == '-') = true := by
        simp only [noDoubleHyphen, Bool.and_eq_true, Bool.not_eq_eq_eq_not] at h
        intro hcd
        rcases h with ⟨hne, _⟩
        rw [hcd] at hne
        exact absurd hne (by simp)
      have h2 : noDoubleHyphen (d :: rest2) = true := by
        simp only [noDoubleHyphen, Bool.and_eq_true] at h
        exact h.2
      simp only [collapseHyphens, h1, if_neg, Bool.false_eq_true, not_false_iff]
      rw [ih h2]

theorem noDoubleHyphen_tail {c : Char} {l : List Char}
    (h : noDoubleHyphen (c :: l) = true) : noDoubleHyphen l = true := by
  cases l with
  | nil => simp [noDoubleHyphen]
  | cons d rest =>
    simp only [noDoubleHyphen, Bool.and_eq_true] at h
    exact h.2

theorem noDoubleHyphen_append_right {a b : List Char}
    (h : noDoubleHyphen (a ++ b) = true) : noDoubleHyphen b = true := by
  induction a with
  | nil => simpa using h
  | cons c rest ih =>
    exact ih (noDoubleHyphen_tail (by simpa using h))

theorem noDoubleHyphen_append_left {a b : List Char}
    (h : noDoubleHyphen (a ++ b) = true) : noDoubleHyphen a = true := by
  induction a with
  | nil => simp [noDoubleHyphen]
  | cons c rest ih =>
    cases rest with
    | nil => simp [noDoubleHyphen]
    | cons d rest2 =>
      simp only [List.cons_append, noDoubleHyphen, Bool.and_eq_true] at h
      have := ih (by simpa [noDoubleHyphen] using h.2)
      simp only [noDoubleHyphen, Bool.and_eq_true]
      exact ⟨h.1, this⟩

theorem dropWhile_head_not {p : Char → Bool} {l : List Char} {c : Char}
    (h : (l.dropWhile p).head? = some c) : p c = false := by
  induction l with
  | nil => simp at h
  | cons x rest ih =>
    by_cases hx : p x = true
    · rw [List.dropWhile_cons, if_pos hx] at h
      exact ih h
    · rw [List.dropWhile_cons, if_neg hx] at h
      simp only [List.head?_cons, Option.some_inj] at h
      rw [← h]
      exact Bool.eq_false_iff.mpr hx

theorem exists_dropWhile_append (p : Char → Bool) (l : List Char) :
    ∃ t, t ++ l.dropWhile p = l := by
  induction l with
  | nil => exact ⟨[], rfl⟩
  | cons x rest ih =>
    by_cases hx : p x = true
    · rcases ih with ⟨t, ht⟩
      exact ⟨x :: t, by rw [List.dropWhile_cons, if_pos hx]; simpa using ht⟩
    · exact ⟨[], by rw [List.dropWhile_cons, if_neg hx]; rfl⟩

theorem stripHyphens_decompose (l : List Char) :
    ∃ t₁ t₂, t₁ ++ stripHyphens l ++ t₂ = l := by
  rcases exists_dropWhile_append isHyphen l with ⟨t₁, ht₁⟩
  rcases exists_dropWhile_append isHyphen (l.dropWhile isHyphen).reverse with ⟨t₂, ht₂⟩
  refine ⟨t₁, t₂.reverse, ?_⟩
  have h3 : l.dropWhile isHyphen = stripHyphens l ++ t₂.reverse := by
    unfold stripHyphens
    have := congrArg List.reverse ht₂
    rw [List.reverse_append, List.reverse_reverse] at this
    exact this.symm
  rw [List.append_assoc, ← h3]
  exact ht₁

theorem noDoubleHyphen_stripHyphens {l : List Char}
    (h : noDoubleHyphen l = true) : noDoubleHyphen (stripHyphens l) = true := by
  rcases stripHyphens_decompose l with ⟨t₁, t₂, hdec⟩
  rw [← hdec, List.append_assoc] at h
  exact noDoubleHyphen_append_left (noDoubleHyphen_append_right h)

theorem mem_stripHyphens {l : List Char} {c : Char}
    (h : c ∈ stripHyphens l) : c ∈ l := by
  rcases stripHyphens_decompose l with ⟨t₁, t₂, hdec⟩
  rw [← hdec]
  simp [h]

theorem mem_collapseHyphens {l : List Char} {c : Char}
    (h : c ∈ collapseHyphens l) : c ∈ l :=
  (collapseHyphens_sublist l).mem h

theorem stripHyphens_head_not {l : List Char} {c : Char}
    (h : (stripHyphens l).head? = some c) : isHyphen c = false := by
  unfold stripHyphens at h
  rw [List.head?_reverse] at h
  have hne : (l.dropWhile isHyphen).reverse.dropWhile isHyphen ≠ [] := by
    intro hnil
    rw [hnil] at h
    simp at h
  rcases exists_dropWhile_append isHyphen (l.dropWhile isHyphen).reverse with ⟨t, ht⟩
  have hlast : ((l.dropWhile isHyphen).reverse.dropWhile isHyphen).getLast? =
      (l.dropWhile isHyphen).reverse.getLast? := by
    conv_rhs => rw [← ht]
    exact (List.getLast?_append_of_ne_nil t hne).symm
  rw [hlast, List.getLast?_reverse] at h
  exact dropWhile_head_not h

theorem stripHyphens_getLast_not {l : List Char} {c : Char}
    (h : (stripHyphens l).getLast? = some c) : isHyphen c = false := by
  unfold stripHyphens at h
  rw [List.getLast?_reverse] at h
  exact dropWhile_head_not h

theorem dropWhile_eq_self_of_head {p : Char → Bool} {l : List Char}
    (h : ∀ c, l.head? = some c → p c = false) : l.dropWhile p = l := by
  cases l with
  | nil => rfl
  | cons x rest =>
    have := h x rfl
    rw [List.dropWhile_cons, if_neg (by simp [this])]

theorem stripHyphens_eq_self {l : List Char}
    (h1 : ∀ c, l.head? = some c → isHyphen c = false)
    (h2 : ∀ c, l.getLast? = some c → isHyphen c = false) : stripHyphens l = l := by
  unfold stripHyphens
  rw [dropWhile_eq_self_of_head h1]
  rw [dropWhile_eq_self_of_head (fun c hc => h2 c (by rwa [List.head?_reverse] at hc))]
  exact List.reverse_reverse l

/-- C9 helper: every character surviving sanitization is in the allowed class. -/
theorem sanitized_chars_allowed (s : String) :
    ∀ c ∈ (sanitizeHostname s).data, isAllowedChar c = true := by
  intro c hc
  unfold sanitizeHostname at hc
  exact mem_replaceInvalidChars (mem_collapseHyphens (mem_stripHyphens hc))

/-- C9 helper: sanitization is the identity on a list that already satisfies
all three output invariants. -/
theorem sanitize_fixed {l : List Char}
    (hall : ∀ c ∈ l, isAllowedChar c = true)
    (hdd : noDoubleHyphen l = true)
    (hhead : ∀ c, l.head? = some c → isHyphen c = false)
    (hlast : ∀ c, l.getLast? = some c → isHyphen c = false) :
    stripHyphens (collapseHyphens (replaceInvalidChars l)) = l := by
  rw [replaceInvalidChars_eq_self hall, collapseHyphens_eq_self hdd,
    stripHyphens_eq_self hhead hlast]

/-! ## C9: idempotence of hostname sanitization -/

/-- C9: Hostname sanitization (replace every character outside
`[A-Za-z0-9.-]` with `-`, collapse runs of `-` to a single `-`, trim
leading and trailing `-`) is idempotent: for every string `s`,
`sanitize (sanitize s) = sanitize s`. -/
theorem c9_sanitize_idempotent (s : String) :
    sanitizeHostname (sanitizeHostname s) = sanitizeHostname s := by
  have hall : ∀ c ∈ stripHyphens (collapseHyphens (replaceInvalidChars s.data)),
      isAllowedChar c = true := sanitized_chars_allowed s
  have hdd : noDoubleHyphen (stripHyphens (collapseHyphens (replaceInvalidChars s.data))) = true :=
    noDoubleHyphen_stripHyphens (noDoubleHyphen_collapseHyphens (replaceInvalidChars s.data))
  show String.mk (stripHyphens (collapseHyphens (replaceInvalidChars
      (stripHyphens (collapseHyphens (replaceInvalidChars s.data)))))) = sanitizeHostname s
  rw [sanitize_fixed hall hdd (fun c hc => stripHyphens_head_not hc)
    (fun c hc => stripHyphens_getLast_not hc)]
  rfl

/-! ## C1: hostname collision resolution -/

theorem resolveHostnameAux_not_mem (taken : List String) (orig : String)
    (remaining : Nat) (f : String) (counter : Nat) (hf : f ∉ taken) :
    resolveHostnameAux taken orig remaining f counter = f := by
  cases remaining with
  | zero => rw [resolveHostnameAux]; simp [hf]
  | succ r => rw [resolveHostnameAux]; simp [hf]

theorem resolveHostnameAux_cap (taken : List String) (orig : String) :
    ∀ (remaining counter : Nat) (f : String), counter + remaining = 100 →
      resolveHostnameAux taken orig remaining f counter ∉ taken ∨
      resolveHostnameAux taken orig remaining f counter = orig ++ "-" ++ toString 100 := by
  intro remaining
  induction remaining with
  | zero =>
    intro counter f hsum
    rw [resolveHostnameAux]
    by_cases hf : f ∈ taken
    · simp only [hf, if_pos]
      right
      have : counter = 100 := by omega
      rw [this]
    · rw [if_neg hf]
      exact Or.inl hf
  | succ r ih =>
    intro counter f hsum
    rw [resolveHostnameAux]
    by_cases hf : f ∈ taken
    · simp only [hf, if_pos]
      exact ih (counter + 1) (orig ++ "-" ++ toString counter) (by omega)
    · rw [if_neg hf]
      exact Or.inl hf

theorem resolveHostnameAux_least (taken : List String) (orig : String) (k : Nat) :
    ∀ (remaining counter : Nat) (f : String), counter + remaining = 100 →
      counter ≤ k → k ≤ 100 → f ∈ taken →
      (∀ j, counter ≤ j → j < k → (orig ++ "-" ++ toString j) ∈ taken) →
      (orig ++ "-" ++ toString k) ∉ taken →
      resolveHostnameAux taken orig remaining f counter = orig ++ "-" ++ toString k := by
  intro remaining
  induction remaining with
  | zero =>
    intro counter f hsum hck hk100 hf _ _
    rw [resolveHostnameAux]
    simp only [hf, if_pos]
    have : counter = k := by omega
    rw [this]
  | succ r ih =>
    intro counter f hsum hck hk100 hf hall hfree
    rw [resolveHostnameAux]
    simp only [hf, if_pos]
    by_cases hek : counter = k
    · rw [hek]
      exact resolveHostnameAux_not_mem taken orig r (orig ++ "-" ++ toString k) (k + 1) hfree
    · have hlt : counter < k := lt_of_le_of_ne hck hek
      exact ih (counter + 1) (orig ++ "-" ++ toString counter) (by omega) (by omega) hk100
        (hall counter le_rfl hlt)
        (fun j h1 h2 => hall j (by omega) h2) hfree

theorem resolveHostnameAux_full (taken : List String) (orig : String) :
    ∀ (remaining counter : Nat) (f : String), counter + remaining = 100 →
      f ∈ taken →
      (∀ j, counter ≤ j → j ≤ 99 → (orig ++ "-" ++ toString j) ∈ taken) →
      resolveHostnameAux taken orig remaining f counter = orig ++ "-" ++ toString 100 := by
  intro remaining
  induction remaining with
  | zero =>
    intro counter f hsum hf _
    rw [resolveHostnameAux]
    simp only [hf, if_pos]
    have : counter = 100 := by omega
    rw [this]
  | succ r ih =>
    intro counter f hsum hf hall
    rw [resolveHostnameAux]
    simp only [hf, if_pos]
    exact ih (counter + 1) (orig ++ "-" ++ toString counter) (by omega)
      (hall counter le_rfl (by omega)) (fun j h1 h2 => hall j (by omega) h2)

/-- C1: For every inventory generation, when a candidate hostname already
exists in the accumulated hostvars map, suffixes `-1`, `-2`, … are tried
until a unique name is found (the first free suffix wins); after 100 suffix
attempts the last-tried name `orig-100` is accepted even if it still
collides; and in the concrete scenario of two instances from different
projects with the same name `web` under the project-ignoring template
`{name}`, the generated inventory holds exactly the hostnames `web` and
`web-1`, assigned to projects `p1` and `p2` respectively. -/
theorem c1_unique_hostnames (taken : List String) (orig : String) :
    (resolveHostname taken orig ∉ taken ∨
      resolveHostname taken orig = orig ++ "-" ++ toString 100) ∧
    (orig ∉ taken → resolveHostname taken orig = orig) ∧
    (∀ k : Nat, 1 ≤ k → k ≤ 100 → orig ∈ taken →
      (∀ j : Nat, 1 ≤ j → j < k → (orig ++ "-" ++ toString j) ∈ taken) →
      (orig ++ "-" ++ toString k) ∉ taken →
      resolveHostname taken orig = orig ++ "-" ++ toString k) ∧
    (orig ∈ taken →
      (∀ j : Nat, 1 ≤ j → j ≤ 99 → (orig ++ "-" ++ toString j) ∈ taken) →
      resolveHostname taken orig = orig ++ "-" ++ toString 100) ∧
    (c1Inventory.hostvars.map Prod.fst = ["web", "web-1"] ∧
      (alookup c1Inventory.hostvars "web").map HostVars.lxd_project = some "p1" ∧
      (alookup c1Inventory.hostvars "web-1").map HostVars.lxd_project = some "p2") := by
  refine ⟨?_, ?_, ?_, ?_, by decide, by decide, by decide⟩
  · exact resolveHostnameAux_cap taken orig 99 1 orig (by omega)
  · intro h
    exact resolveHostnameAux_not_mem taken orig 99 orig 1 h
  · intro k h1 h2 hmem hall hfree
    exact resolveHostnameAux_least taken orig k 99 1 orig (by omega) h1 h2 hmem
      (fun j hj1 hj2 => hall j hj1 hj2) hfree
  · intro hmem hall
    exact resolveHostnameAux_full taken orig 99 1 orig (by omega) hmem
      (fun j h1 h2 => hall j h1 h2)

/-- C1 witness: with `web` already taken, the resolver returns `web-1`. -/
theorem c1_unique_hostnames_witness :
    ("web" ∈ ["web"]) ∧ (("web" ++ "-" ++ toString 1) ∉ ["web"]) ∧
    resolveHostname ["web"] "web" = "web" ++ "-" ++ toString 1 := by
  refine ⟨by decide, by decide, ?_⟩
  exact (c1_unique_hostnames ["web"] "web").2.2.1 1 (by decide) (by decide) (by decide)
    (by intro j hj1 hj2; omega) (by decide)

/-! ## C4: tag presence predicates -/

theorem matchTagOne_presence (inst : Instance) (k : String) (negate : Bool) :
    matchTagOne inst k (TagSpec.dict none negate) =
      (if negate then !(keyPresent inst k) else keyPresent inst k) := by
  rfl

/-- C4: For every instance and a configured tag predicate with
`expected_value = null`: with `negate = false` the instance is excluded
exactly when the key is absent from both `config` and `expanded_config`;
with `negate = true` it is excluded exactly when the key is present in
either; equivalently, the predicate fails exactly when key presence equals
`negate`.  Within any tag-filter map, such a failing predicate excludes the
instance. -/
theorem c4_tag_null_value (inst : Instance) (k : String) (negate : Bool) :
    (matchTagFilters inst [(k, TagSpec.dict none negate)] = false ↔
      keyPresent inst k = negate) ∧
    (∀ tagFilters : List (String × TagSpec),
      (k, TagSpec.dict none negate) ∈ tagFilters →
      keyPresent inst k = negate →
      matchTagFilters inst tagFilters = false) := by
  constructor
  · unfold matchTagFilters
    rw [List.all_eq_false]
    constructor
    · rintro ⟨e, he, hfail⟩
      simp only [List.mem_singleton] at he
      subst he
      rw [matchTagOne_presence] at hfail
      cases negate <;> cases hkp : keyPresent inst k <;> simp_all
    · intro hkp
      refine ⟨(k, TagSpec.dict none negate), List.mem_singleton_self _, ?_⟩
      rw [matchTagOne_presence]
      cases negate <;> simp_all
  · intro tagFilters hmem hkp
    unfold matchTagFilters
    rw [List.all_eq_false]
    refine ⟨(k, TagSpec.dict none negate), hmem, ?_⟩
    rw [matchTagOne_presence]
    cases negate <;> simp_all

/-- C4 witness: an instance with empty configs fails the bare-key presence
predicate, so it is excluded. -/
theorem c4_tag_null_value_witness :
    keyPresent (mkTestInstance "web" "Running") "user.ansible" = false ∧
    matchTagFilters (mkTestInstance "web" "Running")
      [("user.ansible", TagSpec.dict none false)] = false := by
  refine ⟨by decide, ?_⟩
  exact (c4_tag_null_value (mkTestInstance "web" "Running") "user.ansible" false).2
    [("user.ansible", TagSpec.dict none false)] (List.mem_singleton_self _) (by decide)

/-! ## C5: exclude-name pattern semantics -/

theorem splitFirstOnAux_slash_append (a b : List Char) (ha : '/' ∉ a) :
    splitFirstOnAux ['/'] (a ++ '/' :: b) = some (a, b) := by
  induction a with
  | nil =>
    rw [List.nil_append, splitFirstOnAux]
    simp [List.isPrefixOf]
  | cons c a' ih =>
    have hc : c ≠ '/' := fun h => ha (h ▸ List.mem_cons_self c a')
    have ha' : '/' ∉ a' := fun h => ha (List.mem_cons_of_mem c h)
    rw [List.cons_append, splitFirstOnAux]
    have hpre : List.isPrefixOf ['/'] (c :: (a' ++ '/' :: b)) = false := by
      simp [List.isPrefixOf]
      exact fun h => absurd h.symm hc
    rw [hpre]
    simp only [Bool.false_eq_true, if_neg, not_false_iff]
    rw [ih ha']

theorem splitFirstOnAux_slash_none (l : List Char) (h : '/' ∉ l) :
    splitFirstOnAux ['/'] l = none := by
  induction l with
  | nil => rfl
  | cons c rest ih =>
    have hc : c ≠ '/' := fun he => h (he ▸ List.mem_cons_self c rest)
    have hrest : '/' ∉ rest := fun hm => h (List.mem_cons_of_mem c hm)
    rw [splitFirstOnAux]
    have hpre : List.isPrefixOf ['/'] (c :: rest) = false := by
      simp [List.isPrefixOf]
      exact fun he => absurd he.symm hc
    rw [hpre]
    simp only [Bool.false_eq_true, if_neg, not_false_iff]
    rw [ih hrest]

theorem splitFirstOn_slash_append (proj nm : String) (hproj : '/' ∉ proj.data) :
    splitFirstOn "/" (proj ++ "/" ++ nm) = some (proj, nm) := by
  unfold splitFirstOn
  have hdata : (proj ++ "/" ++ nm).data = proj.data ++ '/' :: nm.data := by
    simp [String.data_append]
  rw [hdata]
  rw [show ("/" : String).data = ['/'] from rfl]
  rw [splitFirstOnAux_slash_append proj.data nm.data hproj]

theorem splitFirstOn_slash_none (s : String) (h : '/' ∉ s.data) :
    splitFirstOn "/" s = none := by
  unfold splitFirstOn
  rw [show ("/" : String).data = ['/'] from rfl]
  rw [splitFirstOnAux_slash_none s.data h]

/-- C5: An `exclude_names` pattern `project/name` excludes an instance
named `name` exactly when its `lxd_project` equals `project`; a bare
pattern `name` excludes an instance with that name whatever its project;
and a pattern list excludes exactly when some pattern in it matches (the
source stops at the first match). -/
theorem c5_exclude_name_patterns (reMatch : String → String → Option Bool)
    (inst : Instance) (proj nm : String)
    (hstrip : pyStrip (proj ++ "/" ++ nm) = proj ++ "/" ++ nm)
    (hregex : pyStartsWith (proj ++ "/" ++ nm) "regex:" = false)
    (hproj : '/' ∉ proj.data)
    (hnmstrip : pyStrip nm = nm)
    (hnmregex : pyStartsWith nm "regex:" = false)
    (hnmslash : '/' ∉ nm.data)
    (hnmne : nm ≠ "") :
    (shouldExcludeInstance reMatch inst [proj ++ "/" ++ nm] = true ↔
      (inst.lxd_project = proj ∧ inst.name = nm)) ∧
    (shouldExcludeInstance reMatch inst [nm] = true ↔ inst.name = nm) ∧
    (∀ pats : List String, shouldExcludeInstance reMatch inst pats = true ↔
      ∃ p ∈ pats, excludeNameMatch reMatch inst.name inst.lxd_project p = true) := by
  have hdata : (proj ++ "/" ++ nm).data = proj.data ++ '/' :: nm.data := by
    simp [String.data_append]
  have hne : ((proj ++ "/" ++ nm) == "") = false := by
    rw [beq_eq_false_iff_ne]
    intro h
    rw [h] at hdata
    exact absurd hdata.symm (by simp)
  have hbody1 : excludeNameMatch reMatch inst.name inst.lxd_project (proj ++ "/" ++ nm) =
      (proj == inst.lxd_project && nm == inst.name) := by
    simp [excludeNameMatch, hstrip, hne, hregex, splitFirstOn_slash_append proj nm hproj]
  have hne2 : (nm == "") = false := beq_eq_false_iff_ne.mpr hnmne
  have hbody2 : excludeNameMatch reMatch inst.name inst.lxd_project nm = (nm == inst.name) := by
    simp [excludeNameMatch, hnmstrip, hne2, hnmregex, splitFirstOn_slash_none nm hnmslash]
  refine ⟨?_, ?_, ?_⟩
  · simp only [shouldExcludeInstance, List.isEmpty_cons, Bool.false_eq_true, if_neg,
      not_false_iff, List.any_cons, List.any_nil, Bool.or_false, hbody1,
      Bool.and_eq_true, beq_iff_eq]
    constructor
    · rintro ⟨h1, h2⟩
      exact ⟨h1.symm, h2.symm⟩
    · rintro ⟨h1, h2⟩
      exact ⟨h1.symm, h2.symm⟩
  · simp only [shouldExcludeInstance, List.isEmpty_cons, Bool.false_eq_true, if_neg,
      not_false_iff, List.any_cons, List.any_nil, Bool.or_false, hbody2, beq_iff_eq]
    exact eq_comm
  · intro pats
    cases pats with
    | nil => simp [shouldExcludeInstance]
    | cons a l =>
      simp only [shouldExcludeInstance, List.isEmpty_cons, Bool.false_eq_true, if_neg,
        not_false_iff]
      exact List.any_eq_true

/-- C5 witness: `proj/vm1` excludes `vm1` inside project `proj`, and the
bare `vm1` excludes it in a different project too. -/
theorem c5_exclude_name_patterns_witness :
    shouldExcludeInstance reMatchNever (stampInstance "proj" "" (mkTestInstance "vm1" "Running"))
      ["proj" ++ "/" ++ "vm1"] = true ∧
    shouldExcludeInstance reMatchNever (stampInstance "other" "" (mkTestInstance "vm1" "Running"))
      ["vm1"] = true := by
  constructor
  · exact (c5_exclude_name_patterns reMatchNever
      (stampInstance "proj" "" (mkTestInstance "vm1" "Running")) "proj" "vm1"
      (by decide) (by decide) (by decide) (by decide) (by decide) (by decide)
      (by decide)).1.mpr ⟨rfl, rfl⟩
  · exact (c5_exclude_name_patterns reMatchNever
      (stampInstance "other" "" (mkTestInstance "vm1" "Running")) "proj" "vm1"
      (by decide) (by decide) (by decide) (by decide) (by decide) (by decide)
      (by decide)).2.1.mpr rfl

/-! ## C3 and C10: address resolution -/

theorem mem_collectAddrsOnIface (iface : String) (addrs : List Addr) (pr : String × String)
    (h : pr ∈ (collectAddrsOnIface iface addrs).1 ∨ pr ∈ (collectAddrsOnIface iface addrs).2) :
    ∃ a ∈ addrs, a.scope = some "global" ∧ a.address = some pr.1 ∧ pr.1 ≠ "" ∧ pr.2 = iface := by
  induction addrs with
  | nil => simp [collectAddrsOnIface] at h
  | cons addr rest ih =>
    have hlift : (pr ∈ (collectAddrsOnIface iface rest).1 ∨
        pr ∈ (collectAddrsOnIface iface rest).2) →
        ∃ a ∈ addr :: rest, a.scope = some "global" ∧ a.address = some pr.1 ∧
          pr.1 ≠ "" ∧ pr.2 = iface := by
      intro hh
      rcases ih hh with ⟨a, ha, hr⟩
      exact ⟨a, List.mem_cons_of_mem addr ha, hr⟩
    rw [collectAddrsOnIface] at h
    split at h
    · exact hlift h
    · rename_i hscope
      have hsc : addr.scope = some "global" := by simpa using hscope
      split at h
      · rename_i h4
        rcases (Bool.and_eq_true _ _).mp h4 with ⟨_, htr⟩
        rcases haddr : addr.address with _ | s
        · rw [haddr] at htr; simp [pyTruthy] at htr
        · have hs : s ≠ "" := by rw [haddr] at htr; simpa [pyTruthy] using htr
          rcases h with h | h
          · rcases List.mem_cons.mp h with heq | hmem
            · refine ⟨addr, List.mem_cons_self addr rest, hsc, ?_, ?_, ?_⟩
              · rw [heq, haddr]; simp
              · rw [heq, haddr]; simpa using hs
              · rw [heq]
            · exact hlift (Or.inl hmem)
          · exact hlift (Or.inr h)
      · split at h
        · rename_i h6
          rcases (Bool.and_eq_true _ _).mp h6 with ⟨_, htr⟩
          rcases haddr : addr.address with _ | s
          · rw [haddr] at htr; simp [pyTruthy] at htr
          · have hs : s ≠ "" := by rw [haddr] at htr; simpa [pyTruthy] using htr
            rcases h with h | h
            · exact hlift (Or.inl h)
            · rcases List.mem_cons.mp h with heq | hmem
              · refine ⟨addr, List.mem_cons_self addr rest, hsc, ?_, ?_, ?_⟩
                · rw [heq, haddr]; simp
                · rw [heq, haddr]; simpa using hs
                · rw [heq]
              · exact hlift (Or.inr hmem)
        · exact hlift h

theorem mem_collectIPs (ign : List String) (nw : List (String × List Addr)) (pr : String × String)
    (h : pr ∈ (collectIPs ign nw).1 ∨ pr ∈ (collectIPs ign nw).2) :
    ∃ iface addrs, (iface, addrs) ∈ nw ∧ ign.contains iface = false ∧
      ∃ a ∈ addrs, a.scope = some "global" ∧ a.address = some pr.1 ∧ pr.1 ≠ "" ∧ pr.2 = iface := by
  induction nw with
  | nil => simp [collectIPs] at h
  | cons entry rest ih =>
    rcases entry with ⟨ifn, addrs⟩
    rw [collectIPs] at h
    by_cases hig : ign.contains ifn = true
    · rw [if_pos hig] at h
      rcases ih h with ⟨iface, as, hmem, hrest⟩
      exact ⟨iface, as, List.mem_cons_of_mem _ hmem, hrest⟩
    · rw [if_neg hig] at h
      have hig' : ign.contains ifn = false := Bool.eq_false_iff.mpr hig
      rcases h with h | h
      · rcases List.mem_append.mp h with hh | ht
        · rcases mem_collectAddrsOnIface ifn addrs pr (Or.inl hh) with ⟨a, ha, h1, h2, h3, h4⟩
          exact ⟨ifn, addrs, List.mem_cons_self _ _, hig', a, ha, h1, h2, h3, h4⟩
        · rcases ih (Or.inl ht) with ⟨iface, as, hmem, hrest⟩
          exact ⟨iface, as, List.mem_cons_of_mem _ hmem, hrest⟩
      · rcases List.mem_append.mp h with hh | ht
        · rcases mem_collectAddrsOnIface ifn addrs pr (Or.inr hh) with ⟨a, ha, h1, h2, h3, h4⟩
          exact ⟨ifn, addrs, List.mem_cons_self _ _, hig', a, ha, h1, h2, h3, h4⟩
        · rcases ih (Or.inr ht) with ⟨iface, as, hmem, hrest⟩
          exact ⟨iface, as, List.mem_cons_of_mem _ hmem, hrest⟩

/-- C3: The address resolver returns as primary the first-seen global-scope
address of the preferred family (`inet6` when `prefer_ipv6`, else `inet`),
falling back to the first address of the other family when the preferred
bucket is empty and `none` when both buckets are empty; the ordered list is
the preferred bucket followed by the other; every candidate is a
global-scope address on a non-ignored interface; and with
`prefer_ipv6 = false` and only the `inet6` global address `fd00::1` on
`eth0`, the primary is `fd00::1` and the ordered list is `[fd00::1]`. -/
theorem c3_address_resolution (inst : Instance) (cfg : EndpointConfig) :
    ((getInstanceIps inst cfg).1 = specPreferredFirst cfg.filters.prefer_ipv6
      ((ipv4Bucket inst cfg).map Prod.fst) ((ipv6Bucket inst cfg).map Prod.fst)) ∧
    ((getInstanceIps inst cfg).2 =
      (if cfg.filters.prefer_ipv6 then
        (ipv6Bucket inst cfg).map Prod.fst ++ (ipv4Bucket inst cfg).map Prod.fst
      else (ipv4Bucket inst cfg).map Prod.fst ++ (ipv6Bucket inst cfg).map Prod.fst)) ∧
    (∀ ip ∈ (getInstanceIps inst cfg).2, ∃ nw, inst.network = some nw ∧
      ∃ iface addrs, (iface, addrs) ∈ nw ∧
        cfg.filters.ignore_interfaces.contains iface = false ∧
        ∃ a ∈ addrs, a.scope = some "global" ∧ a.address = some ip) ∧
    (getInstanceIps c3Instance c3Config = (some "fd00::1", ["fd00::1"])) := by
  refine ⟨?_, ?_, ?_, by decide⟩
  · rcases hnw : inst.network with _ | nw
    · simp only [getInstanceIps, ipv4Bucket, ipv6Bucket, hnw]
      cases cfg.filters.prefer_ipv6 <;> simp [specPreferredFirst]
    · simp only [getInstanceIps, ipv4Bucket, ipv6Bucket, hnw]
      cases hp : cfg.filters.prefer_ipv6 <;>
        rcases h4 : (collectIPs cfg.filters.ignore_interfaces nw).1 with _ | ⟨⟨ip4, if4⟩, r4⟩ <;>
        rcases h6 : (collectIPs cfg.filters.ignore_interfaces nw).2 with _ | ⟨⟨ip6, if6⟩, r6⟩ <;>
        simp [specPreferredFirst, h4, h6]
  · rcases hnw : inst.network with _ | nw
    · simp [getInstanceIps, ipv4Bucket, ipv6Bucket, hnw]
    · simp only [getInstanceIps, ipv4Bucket, ipv6Bucket, hnw]
  · intro ip hip
    rcases hnw : inst.network with _ | nw
    · rw [getInstanceIps, hnw] at hip
      simp at hip
    · rw [getInstanceIps, hnw] at hip
      simp only [] at hip
      have hmem : (∃ pr ∈ (collectIPs cfg.filters.ignore_interfaces nw).1, pr.1 = ip) ∨
          (∃ pr ∈ (collectIPs cfg.filters.ignore_interfaces nw).2, pr.1 = ip) := by
        rcases hp : cfg.filters.prefer_ipv6 with _ | _
        · rw [hp] at hip
          simp only [Bool.false_eq_true, if_neg, not_false_iff] at hip
          rcases List.mem_append.mp hip with hm | hm
          · rcases List.mem_map.mp hm with ⟨pr, hpr, hfst⟩
            exact Or.inl ⟨pr, hpr, hfst⟩
          · rcases List.mem_map.mp hm with ⟨pr, hpr, hfst⟩
            exact Or.inr ⟨pr, hpr, hfst⟩
        · rw [hp] at hip
          simp only [if_pos] at hip
          rcases List.mem_append.mp hip with hm | hm
          · rcases List.mem_map.mp hm with ⟨pr, hpr, hfst⟩
            exact Or.inr ⟨pr, hpr, hfst⟩
          · rcases List.mem_map.mp hm with ⟨pr, hpr, hfst⟩
            exact Or.inl ⟨pr, hpr, hfst⟩
      rcases hmem with ⟨pr, hpr, hfst⟩ | ⟨pr, hpr, hfst⟩
      · rcases mem_collectIPs cfg.filters.ignore_interfaces nw pr (Or.inl hpr) with
          ⟨iface, addrs, hm1, hm2, a, ha, hsc, haddr, _, _⟩
        exact ⟨nw, rfl, iface, addrs, hm1, hm2, a, ha, hsc, hfst ▸ haddr⟩
      · rcases mem_collectIPs cfg.filters.ignore_interfaces nw pr (Or.inr hpr) with
          ⟨iface, addrs, hm1, hm2, a, ha, hsc, haddr, _, _⟩
        exact ⟨nw, rfl, iface, addrs, hm1, hm2, a, ha, hsc, hfst ▸ haddr⟩

/-- C3 witness: the scenario address is indeed a global-scope candidate on a
non-ignored interface. -/
theorem c3_address_resolution_witness :
    ("fd00::1" ∈ (getInstanceIps c3Instance c3Config).2) ∧
    (∃ nw, c3Instance.network = some nw ∧
      ∃ iface addrs, (iface, addrs) ∈ nw ∧
        c3Config.filters.ignore_interfaces.contains iface = false ∧
        ∃ a ∈ addrs, a.scope = some "global" ∧ a.address = some "fd00::1") := by
  refine ⟨by decide, ?_⟩
  exact (c3_address_resolution c3Instance c3Config).2.2.1 "fd00::1" (by decide)

theorem getInstanceIps_char (inst : Instance) (cfg : EndpointConfig) :
    ((getInstanceIps inst cfg).1 = none ↔ (getInstanceIps inst cfg).2 = []) ∧
    (∀ p, (getInstanceIps inst cfg).1 = some p →
      (getInstanceIps inst cfg).2.head? = some p ∧ p ≠ "") := by
  rcases hnw : inst.network with _ | nw
  · simp [getInstanceIps, hnw]
  · have key : ∀ pr : String × String,
        (pr ∈ (collectIPs cfg.filters.ignore_interfaces nw).1 ∨
         pr ∈ (collectIPs cfg.filters.ignore_interfaces nw).2) → pr.1 ≠ "" := by
      intro pr hpr
      rcases mem_collectIPs _ nw pr hpr with ⟨_, _, _, _, _, _, _, _, hne, _⟩
      exact hne
    simp only [getInstanceIps, hnw]
    cases hp : cfg.filters.prefer_ipv6 <;>
      rcases h4 : (collectIPs cfg.filters.ignore_interfaces nw).1 with _ | ⟨⟨ip4, if4⟩, r4⟩ <;>
      rcases h6 : (collectIPs cfg.filters.ignore_interfaces nw).2 with _ | ⟨⟨ip6, if6⟩, r6⟩
    · simp [h4, h6]
    · have hne : ip6 ≠ "" :=
        key (ip6, if6) (Or.inr (by rw [h6]; exact List.mem_cons_self _ _))
      simp [h4, h6, hne]
    · have hne : ip4 ≠ "" :=
        key (ip4, if4) (Or.inl (by rw [h4]; exact List.mem_cons_self _ _))
      simp [h4, h6, hne]
    · have hne : ip4 ≠ "" :=
        key (ip4, if4) (Or.inl (by rw [h4]; exact List.mem_cons_self _ _))
      simp [h4, h6, hne]
    · simp [h4, h6]
    · have hne : ip6 ≠ "" :=
        key (ip6, if6) (Or.inr (by rw [h6]; exact List.mem_cons_self _ _))
      simp [h4, h6, hne]
    · have hne : ip4 ≠ "" :=
        key (ip4, if4) (Or.inl (by rw [h4]; exact List.mem_cons_self _ _))
      simp [h4, h6, hne]
    · have hne : ip6 ≠ "" :=
        key (ip6, if6) (Or.inr (by rw [h6]; exact List.mem_cons_self _ _))
      simp [h4, h6, hne]

/-- C10: The address resolver's primary result is `none` exactly when the
ordered address list is empty, and otherwise the primary equals the first
element of the ordered list; consequently, in the assembled host variables,
`ansible_host` is present exactly when `lxd_ip` is present, and then
`ansible_host` equals the head of `lxd_ip`. -/
theorem c10_primary_and_hostvars (inst : Instance) (cfg : EndpointConfig) :
    ((getInstanceIps inst cfg).1 = none ↔ (getInstanceIps inst cfg).2 = []) ∧
    (∀ p, (getInstanceIps inst cfg).1 = some p →
      (getInstanceIps inst cfg).2.head? = some p) ∧
    (∀ endpointName hn,
      ((mkHostvars endpointName cfg inst hn).ansible_host.isSome ↔
        (mkHostvars endpointName cfg inst hn).lxd_ip.isSome) ∧
      (∀ p, (mkHostvars endpointName cfg inst hn).ansible_host = some p →
        ∃ l, (mkHostvars endpointName cfg inst hn).lxd_ip = some l ∧ l.head? = some p)) := by
  rcases getInstanceIps_char inst cfg with ⟨hiff, hhead⟩
  refine ⟨hiff, fun p hp => (hhead p hp).1, ?_⟩
  intro endpointName hn
  rcases hpri : (getInstanceIps inst cfg).1 with _ | p
  · have hnil : (getInstanceIps inst cfg).2 = [] := hiff.mp hpri
    constructor
    · simp [mkHostvars, hpri, hnil, pyTruthy]
    · intro p hp
      simp [mkHostvars, hpri, pyTruthy] at hp
  · rcases hhead p hpri with ⟨hh, hne⟩
    have hnotnil : (getInstanceIps inst cfg).2 ≠ [] := by
      intro hnil
      rw [hnil] at hh
      simp at hh
    constructor
    · simp [mkHostvars, hpri, pyTruthy, hne, hnotnil]
    · intro q hq
      have hq' : q = p := by
        simp [mkHostvars, hpri, pyTruthy, hne] at hq
        exact hq.symm
      refine ⟨(getInstanceIps inst cfg).2, ?_, ?_⟩
      · simp [mkHostvars, hpri, pyTruthy, hne, hnotnil]
      · rw [hq']
        exact hh

/-- C10 witness: the scenario instance yields a primary address heading its
ordered list, and matching `ansible_host`/`lxd_ip` host variables. -/
theorem c10_primary_and_hostvars_witness :
    ((getInstanceIps c3Instance c3Config).2.head? = some "fd00::1") ∧
    (∃ l, (mkHostvars "ep" c3Config c3Instance "web1").lxd_ip = some l ∧
      l.head? = some "fd00::1") := by
  refine ⟨?_, ?_⟩
  · exact (c10_primary_and_hostvars c3Instance c3Config).2.1 "fd00::1" (by decide)
  · exact ((c10_primary_and_hostvars c3Instance c3Config).2.2 "ep" "web1").2 "fd00::1" (by decide)

/-! ## C8: the hard-coded default configuration -/

/-- C8 counterexample: with no configuration present at all, the synthetic
`default` endpoint resolves `projects` to the all-projects sentinel
`["all"]`, not to `["default"]` as claimed. -/
theorem c8_counterexample :
    (alookup (getDefaultConfig argsNone).endpoints "default").map
      (fun c => c.filters.projects) = some ["all"] ∧
    (["all"] : List String) ≠ ["default"] := ⟨by decide, by decide⟩

/-- C8 (amended): when no configuration is present at all, config resolution
produces a mapping containing exactly one synthetic endpoint named
`default` whose resolved settings are the hard-coded defaults: the local
unix-socket endpoint, `projects` resolved to the all-projects sentinel
`{all}`, all four statuses, both instance types, and the standard interface
ignore-list. -/
theorem c8_default_config :
    loadConfig argsNone emptyConfigData =
      Except.ok { endpoints := [("default", defaultEndpointConfig)] } ∧
    defaultEndpointConfig.endpoint = "unix:///var/lib/lxd/unix.socket" ∧
    defaultEndpointConfig.filters.projects = ["all"] ∧
    defaultEndpointConfig.filters.status = ["running", "stopped", "frozen", "error"] ∧
    defaultEndpointConfig.filters.type = ["container", "virtual-machine"] ∧
    defaultEndpointConfig.filters.ignore_interfaces =
      ["lo", "docker0", "cilium_host", "cilium_vxlan", "cilium_net"] ∧
    defaultEndpointConfig.hostname_format = "{name}" :=
  ⟨rfl, rfl, rfl, rfl, rfl, rfl, rfl⟩

/-! ## C6: CLI endpoint restriction -/

theorem alookup_mapUpdate {β : Type} (d : List (String × β)) (k : String) (v : β) (x : String) :
    alookup (d.map (fun e => if e.1 = k then (e.1, v) else e)) x =
      if x = k then (alookup d k).map (fun _ => v) else alookup d x := by
  induction d with
  | nil => simp [alookup]
  | cons e rest ih =>
    rcases e with ⟨ek, ev⟩
    by_cases hek : ek = k
    · have hh : List.map (fun e : String × β => if e.1 = k then (e.1, v) else e)
          ((ek, ev) :: rest) =
          (ek, v) :: List.map (fun e : String × β => if e.1 = k then (e.1, v) else e) rest := by
        rw [List.map_cons]
        congr 1
        show (if (ek, ev).1 = k then ((ek, ev).1, v) else (ek, ev)) = (ek, v)
        rw [if_pos (show (ek, ev).1 = k from hek)]
      rw [hh, alookup]
      by_cases hx : ek = x
      · rw [if_pos hx, if_pos (by rw [← hx, ← hek]), alookup, if_pos hek]
        rfl
      · rw [if_neg hx, ih]
        have hxk : ¬ x = k := fun h => hx (by rw [hek, ← h])
        rw [if_neg hxk, if_neg hxk, alookup, if_neg hx]
    · have hh : List.map (fun e : String × β => if e.1 = k then (e.1, v) else e)
          ((ek, ev) :: rest) =
          (ek, ev) :: List.map (fun e : String × β => if e.1 = k then (e.1, v) else e) rest := by
        rw [List.map_cons]
        congr 1
        show (if (ek, ev).1 = k then ((ek, ev).1, v) else (ek, ev)) = (ek, ev)
        rw [if_neg (show ¬ (ek, ev).1 = k from hek)]
      rw [hh, alookup]
      by_cases hx : ek = x
      · have hxk : ¬ x = k := fun h => hek (by rw [hx, h])
        rw [if_pos hx, if_neg hxk, alookup, if_pos hx]
      · rw [if_neg hx, ih]
        by_cases hxk : x = k
        · rw [if_pos hxk, if_pos hxk, alookup, if_neg hek]
        · rw [if_neg hxk, if_neg hxk, alookup, if_neg hx]

theorem alookup_append_single {β : Type} (d : List (String × β)) (k : String) (v : β) (x : String) :
    alookup (d ++ [(k, v)]) x =
      match alookup d x with
      | some w => some w
      | none => if x = k then some v else none := by
  induction d with
  | nil =>
    show (if k = x then some v else alookup ([] : List (String × β)) x) =
      match (none : Option β) with
      | some w => some w
      | none => if x = k then some v else none
    by_cases hx : k = x
    · rw [if_pos hx]
      show some v = if x = k then some v else none
      rw [if_pos hx.symm]
    · rw [if_neg hx]
      show (none : Option β) = if x = k then some v else none
      rw [if_neg (fun h => hx h.symm)]
  | cons e rest ih =>
    rcases e with ⟨ek, ev⟩
    rw [List.cons_append, alookup, alookup]
    by_cases hek : ek = x
    · rw [if_pos hek, if_pos hek]
    · rw [if_neg hek, if_neg hek, ih]

theorem alookup_dictInsert {β : Type} (d : List (String × β)) (k : String) (v : β) (x : String) :
    alookup (dictInsert d k v) x = if x = k then some v else alookup d x := by
  unfold dictInsert
  by_cases hc : containsKey d k = true
  · rw [if_pos hc, alookup_mapUpdate]
    by_cases hx : x = k
    · subst hx
      rw [if_pos rfl, if_pos rfl]
      rw [containsKey] at hc
      rcases hl : alookup d x with _ | w
      · rw [hl] at hc; simp at hc
      · simp
    · rw [if_neg hx, if_neg hx]
  · rw [if_neg hc, alookup_append_single]
    have hnone : alookup d k = none := by
      rw [containsKey] at hc
      rcases hl : alookup d k with _ | w
      · rfl
      · rw [hl] at hc; simp at hc
    by_cases hx : x = k
    · subst hx
      rw [hnone, if_pos rfl]
    · rcases hl : alookup d x with _ | w
      · rfl
      · rw [if_neg hx, if_neg hx]

theorem alookup_foldl_restrict (base : List (String × EndpointConfig)) :
    ∀ (req : List String) (acc : List (String × EndpointConfig)),
      (∀ n ∈ req, containsKey base n = true) →
      ∀ x, alookup (req.foldl (fun acc n =>
          match alookup base n with
          | some v => dictInsert acc n v
          | none => acc) acc) x =
        if x ∈ req then alookup base x else alookup acc x := by
  intro req
  induction req with
  | nil =>
    intro acc _ x
    rw [List.foldl_nil, if_neg (List.not_mem_nil x)]
  | cons n rest ih =>
    intro acc hall x
    rw [List.foldl_cons]
    rcases hb : alookup base n with _ | v
    · have := hall n (List.mem_cons_self _ _)
      rw [containsKey, hb] at this
      simp at this
    · rw [ih (dictInsert acc n v) (fun m hm => hall m (List.mem_cons_of_mem _ hm)) x]
      by_cases hx : x ∈ rest
      · rw [if_pos hx, if_pos (List.mem_cons_of_mem _ hx)]
      · rw [if_neg hx, alookup_dictInsert]
        by_cases hxn : x = n
        · subst hxn
          rw [if_pos rfl, if_pos (List.mem_cons_self _ _), hb]
        · rw [if_neg hxn, if_neg (by rw [List.mem_cons]; exact fun h => h.elim hxn hx)]

/-- C6 counterexample: in a run with no configuration file at all, a CLI
endpoint filter naming `production` neither restricts the resolved mapping
to that name nor fails: resolution succeeds with the single synthetic
endpoint `default` (the source only prints a warning, lines 119-125). -/
theorem c6_counterexample :
    loadConfig { argsNone with endpoint := some "production" } emptyConfigData =
      Except.ok (getDefaultConfig { argsNone with endpoint := some "production" }) ∧
    (getDefaultConfig { argsNone with endpoint := some "production" }).endpoints.map
      Prod.fst = ["default"] ∧
    ("production" ∉ (["default"] : List String)) := ⟨rfl, rfl, by decide⟩

/-- C6 (amended): in every run whose configuration uses the multi-endpoint
format (`lxd_endpoints` present), when the CLI endpoint filter names one or
more endpoints, the resolved endpoint mapping is restricted to exactly
those names (same configurations as without the filter), and if any
requested name is absent from the configuration, resolution fails with a
fatal configuration error that lists the available endpoint names. -/
theorem c6_endpoint_restriction (args : Args) (cd : ConfigData) (s : String)
    (eps : List (String × EndpointFragment))
    (h1 : args.endpoint = some s) (h2 : s ≠ "")
    (h3 : cd.lxd_endpoints = some eps) :
    ((∀ n ∈ requestedEndpoints s, containsKey (baseEndpoints args cd) n = true) →
      ∃ rc, loadConfig args cd = Except.ok rc ∧
        (∀ n, containsKey rc.endpoints n = true ↔ n ∈ requestedEndpoints s) ∧
        (∀ n ∈ requestedEndpoints s,
          alookup rc.endpoints n = alookup (baseEndpoints args cd) n)) ∧
    ((∃ n ∈ requestedEndpoints s, containsKey (baseEndpoints args cd) n = false) →
      ∃ e, loadConfig args cd = Except.error e ∧
        e.available = (baseEndpoints args cd).map Prod.fst ∧
        e.missing = (requestedEndpoints s).filter
          (fun n => !(containsKey (baseEndpoints args cd) n)) ∧
        e.missing ≠ []) := by
  have hload : loadConfig args cd = processMultiEndpointConfig args cd := by
    rw [loadConfig, if_pos (by rw [h3]; rfl)]
  have hcli : cliStr args.endpoint = some s := by
    rw [h1, cliStr]
    rw [if_neg (by simpa using h2)]
  have hstep : loadConfig args cd =
      (if ((requestedEndpoints s).filter
          (fun n => !(containsKey (baseEndpoints args cd) n))).isEmpty then
        Except.ok ⟨(requestedEndpoints s).foldl (fun acc n =>
          match alookup (baseEndpoints args cd) n with
          | some v => dictInsert acc n v
          | none => acc) []⟩
      else Except.error ⟨(requestedEndpoints s).filter
          (fun n => !(containsKey (baseEndpoints args cd) n)),
        (baseEndpoints args cd).map Prod.fst⟩) := by
    rw [hload, processMultiEndpointConfig, hcli]
  constructor
  · intro hall
    have hmiss : (requestedEndpoints s).filter
        (fun n => !(containsKey (baseEndpoints args cd) n)) = [] := by
      rw [List.filter_eq_nil_iff]
      intro n hn
      rw [hall n hn]
      simp
    refine ⟨⟨(requestedEndpoints s).foldl (fun acc n =>
        match alookup (baseEndpoints args cd) n with
        | some v => dictInsert acc n v
        | none => acc) []⟩, ?_, ?_, ?_⟩
    · rw [hstep, if_pos (by rw [hmiss]; rfl)]
    · intro n
      rw [containsKey, alookup_foldl_restrict (baseEndpoints args cd)
        (requestedEndpoints s) [] hall n]
      by_cases hn : n ∈ requestedEndpoints s
      · rw [if_pos hn]
        have := hall n hn
        rw [containsKey] at this
        simp [this, hn]
      · rw [if_neg hn]
        simp [alookup, hn]
    · intro n hn
      rw [alookup_foldl_restrict (baseEndpoints args cd) (requestedEndpoints s) [] hall n,
        if_pos hn]
  · rintro ⟨n, hn, habsent⟩
    have hmem : n ∈ (requestedEndpoints s).filter
        (fun m => !(containsKey (baseEndpoints args cd) m)) := by
      rw [List.mem_filter]
      exact ⟨hn, by rw [habsent]; rfl⟩
    have hne : (requestedEndpoints s).filter
        (fun m => !(containsKey (baseEndpoints args cd) m)) ≠ [] := by
      intro hnil
      rw [hnil] at hmem
      exact List.not_mem_nil n hmem
    refine ⟨⟨(requestedEndpoints s).filter
        (fun m => !(containsKey (baseEndpoints args cd) m)),
      (baseEndpoints args cd).map Prod.fst⟩, ?_, rfl, rfl, hne⟩
    rw [hstep, if_neg (by rw [List.isEmpty_iff]; exact hne)]

/-- C6 witness: requesting the configured endpoint `production` restricts
the mapping to it; requesting the unknown `staging` yields the fatal error
listing the available names. -/
theorem c6_endpoint_restriction_witness :
    (∃ rc, loadConfig c6Args c6ConfigData = Except.ok rc ∧
      (∀ n, containsKey rc.endpoints n = true ↔ n ∈ requestedEndpoints "production") ∧
      (∀ n ∈ requestedEndpoints "production",
        alookup rc.endpoints n = alookup (baseEndpoints c6Args c6ConfigData) n)) ∧
    (∃ e, loadConfig c6ArgsMissing c6ConfigData = Except.error e ∧
      e.available = (baseEndpoints c6ArgsMissing c6ConfigData).map Prod.fst ∧
      e.missing = (requestedEndpoints "staging").filter
        (fun n => !(containsKey (baseEndpoints c6ArgsMissing c6ConfigData) n)) ∧
      e.missing ≠ []) := by
  constructor
  · exact (c6_endpoint_restriction c6Args c6ConfigData "production"
      [("production", c6EmptyFragment), ("development", c6EmptyFragment)]
      rfl (by decide) rfl).1 (by decide)
  · exact (c6_endpoint_restriction c6ArgsMissing c6ConfigData "staging"
      [("production", c6EmptyFragment), ("development", c6EmptyFragment)]
      rfl (by decide) rfl).2 ⟨"staging", by decide, by decide⟩

/-! ## C7: all-projects discovery and project exclusion -/

/-- C7: When `projects` resolves to `all` (as it does whenever the CLI
all-projects flag is given — third conjunct), the collector parses a
URL-list `/projects` response by taking the last path segment of each
`/projects/` URL, removes every project matched by an `exclude_projects`
pattern (a `regex:` pattern being evaluated through the regex engine
against the project name), and collects only the remaining projects: with
the fetch returning `/1.0/projects/default` and `/1.0/projects/staging`
and `exclude_projects = [regex:^stag.*]`, only instances of project
`default` are collected. -/
theorem c7_all_projects_discovery (reMatch : String → String → Option Bool)
    (env : FetchEnv) (cfg : EndpointConfig)
    (hall : cfg.filters.projects = ["all"])
    (hfetch : env.projectsRec0 = ProjectsResp.list
      ["/1.0/projects/default", "/1.0/projects/staging"])
    (hex : cfg.filters.exclude_projects = ["regex:^stag.*"])
    (hr1 : reMatch "^stag.*" "staging" = some true)
    (hr2 : reMatch "^stag.*" "default" = some false) :
    (getInstances reMatch env cfg =
      (env.instancesOf "default").map (stampInstance "default" cfg.name)) ∧
    (∀ i ∈ getInstances reMatch env cfg, i.lxd_project = "default") ∧
    (∀ (args : Args) (n : String) (frag : EndpointFragment) (g : GlobalDefaults),
      args.all_projects = true →
      (processEndpointConfig args n frag g).filters.projects = ["all"]) := by
  have hd : shouldExcludeProject reMatch "default" cfg.name ["regex:^stag.*"] = false := by
    rw [show shouldExcludeProject reMatch "default" cfg.name ["regex:^stag.*"] =
        ((match reMatch "^stag.*" "default" with
          | some b => b
          | none => false) || false) from rfl, hr2]
    rfl
  have hs : shouldExcludeProject reMatch "staging" cfg.name ["regex:^stag.*"] = true := by
    rw [show shouldExcludeProject reMatch "staging" cfg.name ["regex:^stag.*"] =
        ((match reMatch "^stag.*" "staging" with
          | some b => b
          | none => false) || false) from rfl, hr1]
    rfl
  have hparse : parseProjectUrls ["/1.0/projects/default", "/1.0/projects/staging"] =
      ["default", "staging"] := by decide
  have hmain : getInstances reMatch env cfg =
      (env.instancesOf "default").map (stampInstance "default" cfg.name) := by
    simp only [getInstances, hall, hfetch, hex]
    simp [respFalsy, hparse, hd, hs]
  refine ⟨hmain, ?_, ?_⟩
  · intro i hi
    rw [hmain] at hi
    rcases List.mem_map.mp hi with ⟨j, _, rfl⟩
    rfl
  · intro args n frag g h
    simp [processEndpointConfig, h]

/-- C7 witness: the scenario applied to a concrete fetch environment
collects exactly the stamped instances of `default`. -/
theorem c7_all_projects_discovery_witness :
    getInstances c7ReMatch
      (c7Env (fun p => if p == "default" then [mkTestInstance "d1" "Running"] else []))
      c7Config =
    ((c7Env (fun p => if p == "default" then [mkTestInstance "d1" "Running"] else [])).instancesOf
      "default").map (stampInstance "default" c7Config.name) := by
  exact (c7_all_projects_discovery c7ReMatch
    (c7Env (fun p => if p == "default" then [mkTestInstance "d1" "Running"] else []))
    c7Config rfl rfl rfl (by decide) (by decide)).1

/-! ## C2: status-group membership

Group-operation lemmas, then an invariant carried through the generation
fold.  The `assigned.Nodup` hypothesis of the main theorem says that no
hostname collision survived the 100-suffix cap (otherwise a later instance
overwrites an earlier hostvars entry while both group memberships remain,
which is the counterexample below). -/

theorem alookup_appendToGroup (gs : List (String × List String)) (g hn x : String) :
    alookup (appendToGroup gs g hn) x =
      if x = g then (alookup gs g).map (fun hs => hs ++ [hn]) else alookup gs x := by
  induction gs with
  | nil => simp [appendToGroup, alookup]
  | cons e rest ih =>
    rcases e with ⟨ek, ev⟩
    rw [appendToGroup] at ih ⊢
    by_cases hek : ek = g
    · have hh : List.map (fun e : String × List String =>
          if e.1 = g then (e.1, e.2 ++ [hn]) else e) ((ek, ev) :: rest) =
          (ek, ev ++ [hn]) :: List.map (fun e : String × List String =>
            if e.1 = g then (e.1, e.2 ++ [hn]) else e) rest := by
        rw [List.map_cons]
        congr 1
        show (if (ek, ev).1 = g then ((ek, ev).1, (ek, ev).2 ++ [hn]) else (ek, ev)) =
          (ek, ev ++ [hn])
        rw [if_pos (show (ek, ev).1 = g from hek)]
      rw [hh, alookup]
      by_cases hx : ek = x
      · rw [if_pos hx, if_pos (by rw [← hx, ← hek]), alookup, if_pos hek]
        rfl
      · rw [if_neg hx, ih]
        have hxg : ¬ x = g := fun h => hx (by rw [hek, ← h])
        rw [if_neg hxg, if_neg hxg, alookup, if_neg hx]
    · have hh : List.map (fun e : String × List String =>
          if e.1 = g then (e.1, e.2 ++ [hn]) else e) ((ek, ev) :: rest) =
          (ek, ev) :: List.map (fun e : String × List String =>
            if e.1 = g then (e.1, e.2 ++ [hn]) else e) rest := by
        rw [List.map_cons]
        congr 1
        show (if (ek, ev).1 = g then ((ek, ev).1, (ek, ev).2 ++ [hn]) else (ek, ev)) = (ek, ev)
        rw [if_neg (show ¬ (ek, ev).1 = g from hek)]
      rw [hh, alookup]
      by_cases hx : ek = x
      · have hxg : ¬ x = g := fun h => hek (by rw [hx, h])
        rw [if_pos hx, if_neg hxg, alookup, if_pos hx]
      · rw [if_neg hx, ih]
        by_cases hxg : x = g
        · rw [if_pos hxg, if_pos hxg, alookup, if_neg hek]
        · rw [if_neg hxg, if_neg hxg, alookup, if_neg hx]

theorem containsKey_appendToGroup (gs : List (String × List String)) (g hn x : String) :
    containsKey (appendToGroup gs g hn) x = containsKey gs x := by
  rw [containsKey, containsKey, alookup_appendToGroup]
  by_cases hx : x = g
  · rw [if_pos hx, hx]
    cases alookup gs g <;> rfl
  · rw [if_neg hx]

theorem groupHosts_appendToGroup_ne (gs : List (String × List String)) (g hn x : String)
    (hx : x ≠ g) : groupHosts (appendToGroup gs g hn) x = groupHosts gs x := by
  rw [groupHosts, groupHosts, alookup_appendToGroup, if_neg hx]

theorem groupHosts_appendToGroup_self (gs : List (String × List String)) (g hn : String)
    (hc : containsKey gs g = true) :
    groupHosts (appendToGroup gs g hn) g = groupHosts gs g ++ [hn] := by
  rw [groupHosts, groupHosts, alookup_appendToGroup, if_pos rfl]
  rw [containsKey] at hc
  rcases hl : alookup gs g with _ | hs
  · rw [hl] at hc; simp at hc
  · rfl

theorem groupHosts_ensureGroup (gs : List (String × List String)) (g x : String) :
    groupHosts (ensureGroup gs g) x = groupHosts gs x := by
  rw [ensureGroup]
  by_cases hc : containsKey gs g = true
  · rw [if_pos hc]
  · rw [if_neg hc, groupHosts, groupHosts, alookup_append_single]
    rcases hl : alookup gs x with _ | hs
    · by_cases hx : x = g
      · subst hx
        rw [if_pos rfl]
        rw [containsKey, hl] at hc
        rfl
      · rw [if_neg hx]
    · rfl

theorem containsKey_ensureGroup_mono (gs : List (String × List String)) (g x : String)
    (hc : containsKey gs x = true) : containsKey (ensureGroup gs g) x = true := by
  rw [ensureGroup]
  by_cases hg : containsKey gs g = true
  · rw [if_pos hg]; exact hc
  · rw [if_neg hg, containsKey, alookup_append_single]
    rw [containsKey] at hc
    rcases hl : alookup gs x with _ | hs
    · rw [hl] at hc; simp at hc
    · rfl

theorem setGroup_eq_dictInsert (gs : List (String × List String)) (g : String) :
    setGroup gs g = dictInsert gs g [] := rfl

theorem groupHosts_setGroup_ne (gs : List (String × List String)) (g x : String)
    (hx : x ≠ g) : groupHosts (setGroup gs g) x = groupHosts gs x := by
  rw [setGroup_eq_dictInsert, groupHosts, groupHosts, alookup_dictInsert, if_neg hx]

theorem containsKey_setGroup_mono (gs : List (String × List String)) (g x : String)
    (hc : containsKey gs x = true) : containsKey (setGroup gs g) x = true := by
  rw [setGroup_eq_dictInsert, containsKey, alookup_dictInsert]
  by_cases hx : x = g
  · rw [if_pos hx]; rfl
  · rw [if_neg hx]; exact hc

theorem keys_appendToGroup (gs : List (String × List String)) (g hn : String) :
    (appendToGroup gs g hn).map Prod.fst = gs.map Prod.fst := by
  induction gs with
  | nil => rfl
  | cons e rest ih =>
    rcases e with ⟨ek, ev⟩
    rw [appendToGroup] at ih ⊢
    rw [List.map_cons, List.map_cons, List.map_cons, ih]
    congr 1
    by_cases hek : ek = g
    · rw [show (if (ek, ev).1 = g then ((ek, ev).1, (ek, ev).2 ++ [hn]) else (ek, ev)) =
        (ek, ev ++ [hn]) from by rw [if_pos (show (ek, ev).1 = g from hek)]]
    · rw [show (if (ek, ev).1 = g then ((ek, ev).1, (ek, ev).2 ++ [hn]) else (ek, ev)) =
        (ek, ev) from by rw [if_neg (show ¬ (ek, ev).1 = g from hek)]]

theorem alookup_eq_none_iff {β : Type} (d : List (String × β)) (x : String) :
    alookup d x = none ↔ x ∉ d.map Prod.fst := by
  induction d with
  | nil => simp [alookup]
  | cons e rest ih =>
    rcases e with ⟨ek, ev⟩
    rw [alookup]
    by_cases hek : ek = x
    · subst hek
      simp
    · rw [if_neg hek, List.map_cons, List.mem_cons, ih]
      constructor
      · intro h hmem
        rcases hmem with h1 | h1
        · exact hek h1.symm
        · exact h h1
      · intro h h1
        exact h (Or.inr h1)

theorem nodup_keys_ensureGroup (gs : List (String × List String)) (g : String)
    (hnd : (gs.map Prod.fst).Nodup) : ((ensureGroup gs g).map Prod.fst).Nodup := by
  rw [ensureGroup]
  by_cases hc : containsKey gs g = true
  · rw [if_pos hc]; exact hnd
  · rw [if_neg hc, List.map_append]
    have hg : g ∉ gs.map Prod.fst := by
      rw [← alookup_eq_none_iff]
      rw [containsKey] at hc
      rcases hl : alookup gs g with _ | w
      · rfl
      · rw [hl] at hc; simp at hc
    simp [List.nodup_append, hnd, hg]

theorem keys_mapUpdate {β : Type} (d : List (String × β)) (k : String) (v : β) :
    (d.map (fun e => if e.1 = k then (e.1, v) else e)).map Prod.fst = d.map Prod.fst := by
  induction d with
  | nil => rfl
  | cons e rest ih =>
    rcases e with ⟨ek, ev⟩
    rw [List.map_cons, List.map_cons, List.map_cons, ih]
    congr 1
    by_cases hek : ek = k
    · rw [show (if (ek, ev).1 = k then ((ek, ev).1, v) else (ek, ev)) = (ek, v) from by
        rw [if_pos (show (ek, ev).1 = k from hek)]]
    · rw [show (if (ek, ev).1 = k then ((ek, ev).1, v) else (ek, ev)) = (ek, ev) from by
        rw [if_neg (show ¬ (ek, ev).1 = k from hek)]]

theorem nodup_keys_dictInsert {β : Type} (d : List (String × β)) (k : String) (v : β)
    (hnd : (d.map Prod.fst).Nodup) : ((dictInsert d k v).map Prod.fst).Nodup := by
  rw [dictInsert]
  by_cases hc : containsKey d k = true
  · rw [if_pos hc, keys_mapUpdate]
    exact hnd
  · rw [if_neg hc, List.map_append]
    have hk : k ∉ d.map Prod.fst := by
      rw [← alookup_eq_none_iff]
      rw [containsKey] at hc
      rcases hl : alookup d k with _ | w
      · rfl
      · rw [hl] at hc; simp at hc
    simp [List.nodup_append, hnd, hk]

theorem prefix_group_ne (pre suf g : String) (hpre : 11 < pre.length)
    (hg : g.length ≤ 11) : ¬ (pre ++ suf) = g := by
  intro h
  have hl := congrArg String.length h
  rw [String.length_append] at hl
  omega

theorem statusGroupPairs_facts :
    ∀ gp ∈ statusGroupPairs, gp.1.length ≤ 11 ∧ gp.1 ≠ "all" ∧
      gp.1 ≠ "lxd_containers" ∧ gp.1 ≠ "lxd_vms" := by decide

theorem groupHosts_addTypeGroup (t hn : String) (gs : List (String × List String))
    (g s : String) (hg : (g, s) ∈ statusGroupPairs) :
    groupHosts (addTypeGroup t hn gs) g = groupHosts gs g := by
  rcases statusGroupPairs_facts (g, s) hg with ⟨_, _, hc, hv⟩
  rw [addTypeGroup]
  by_cases h1 : (t == "container") = true
  · rw [if_pos h1, groupHosts_appendToGroup_ne _ _ _ _ hc]
  · rw [if_neg h1]
    by_cases h2 : (t == "virtual-machine") = true
    · rw [if_pos h2, groupHosts_appendToGroup_ne _ _ _ _ hv]
    · rw [if_neg h2]

theorem containsKey_addTypeGroup (t hn : String) (gs : List (String × List String))
    (x : String) : containsKey (addTypeGroup t hn gs) x = containsKey gs x := by
  rw [addTypeGroup]
  by_cases h1 : (t == "container") = true
  · rw [if_pos h1, containsKey_appendToGroup]
  · rw [if_neg h1]
    by_cases h2 : (t == "virtual-machine") = true
    · rw [if_pos h2, containsKey_appendToGroup]
    · rw [if_neg h2]

theorem keys_addTypeGroup (t hn : String) (gs : List (String × List String)) :
    (addTypeGroup t hn gs).map Prod.fst = gs.map Prod.fst := by
  rw [addTypeGroup]
  by_cases h1 : (t == "container") = true
  · rw [if_pos h1, keys_appendToGroup]
  · rw [if_neg h1]
    by_cases h2 : (t == "virtual-machine") = true
    · rw [if_pos h2, keys_appendToGroup]
    · rw [if_neg h2]

theorem statusGroupPairs_distinct :
    ∀ gp ∈ statusGroupPairs, ∀ gq ∈ statusGroupPairs, gp.1 = gq.1 → gp.2 = gq.2 := by decide

theorem groupHosts_addStatusGroup (status hn : String) (gs : List (String × List String))
    (g s : String) (hg : (g, s) ∈ statusGroupPairs) (hcont : containsKey gs g = true) :
    groupHosts (addStatusGroup status hn gs) g =
      if status = s then groupHosts gs g ++ [hn] else groupHosts gs g := by
  simp only [statusGroupPairs, List.mem_cons, List.not_mem_nil, or_false,
    Prod.mk.injEq] at hg
  rw [addStatusGroup]
  rcases hg with ⟨hg1, hg2⟩ | ⟨hg1, hg2⟩ | ⟨hg1, hg2⟩ | ⟨hg1, hg2⟩ <;> subst hg1 <;> subst hg2
  · -- target lxd_running
    by_cases h1 : (status == "running") = true
    · rw [if_pos h1, groupHosts_appendToGroup_self _ _ _ hcont, if_pos (eq_of_beq h1)]
    · rw [if_neg h1]
      by_cases h2 : (status == "stopped") = true
      · rw [if_pos h2, groupHosts_appendToGroup_ne _ _ _ _ (by decide), if_neg (by rw [eq_of_beq h2]; decide)]
      · rw [if_neg h2]
        by_cases h3 : (status == "frozen") = true
        · rw [if_pos h3, groupHosts_appendToGroup_ne _ _ _ _ (by decide), if_neg (by rw [eq_of_beq h3]; decide)]
        · rw [if_neg h3]
          by_cases h4 : (status == "error") = true
          · rw [if_pos h4, groupHosts_appendToGroup_ne _ _ _ _ (by decide), if_neg (by rw [eq_of_beq h4]; decide)]
          · rw [if_neg h4]
            rw [if_neg (fun he => h1 (by rw [he]; exact beq_self_eq_true _))]
  · -- target lxd_stopped
    by_cases h1 : (status == "running") = true
    · rw [if_pos h1, groupHosts_appendToGroup_ne _ _ _ _ (by decide), if_neg (by rw [eq_of_beq h1]; decide)]
    · rw [if_neg h1]
      by_cases h2 : (status == "stopped") = true
      · rw [if_pos h2, groupHosts_appendToGroup_self _ _ _ hcont, if_pos (eq_of_beq h2)]
      · rw [if_neg h2]
        by_cases h3 : (status == "frozen") = true
        · rw [if_pos h3, groupHosts_appendToGroup_ne _ _ _ _ (by decide), if_neg (by rw [eq_of_beq h3]; decide)]
        · rw [if_neg h3]
          by_cases h4 : (status == "error") = true
          · rw [if_pos h4, groupHosts_appendToGroup_ne _ _ _ _ (by decide), if_neg (by rw [eq_of_beq h4]; decide)]
          · rw [if_neg h4]
            rw [if_neg (fun he => h2 (by rw [he]; exact beq_self_eq_true _))]
  · -- target lxd_frozen
    by_cases h1 : (status == "running") = true
    · rw [if_pos h1, groupHosts_appendToGroup_ne _ _ _ _ (by decide), if_neg (by rw [eq_of_beq h1]; decide)]
    · rw [if_neg h1]
      by_cases h2 : (status == "stopped") = true
      · rw [if_pos h2, groupHosts_appendToGroup_ne _ _ _ _ (by decide), if_neg (by rw [eq_of_beq h2]; decide)]
      · rw [if_neg h2]
        by_cases h3 : (status == "frozen") = true
        · rw [if_pos h3, groupHosts_appendToGroup_self _ _ _ hcont, if_pos (eq_of_beq h3)]
        · rw [if_neg h3]
          by_cases h4 : (status == "error") = true
          · rw [if_pos h4, groupHosts_appendToGroup_ne _ _ _ _ (by decide), if_neg (by rw [eq_of_beq h4]; decide)]
          · rw [if_neg h4]
            rw [if_neg (fun he => h3 (by rw [he]; exact beq_self_eq_true _))]
  · -- target lxd_error
    by_cases h1 : (status == "running") = true
    · rw [if_pos h1, groupHosts_appendToGroup_ne _ _ _ _ (by decide), if_neg (by rw [eq_of_beq h1]; decide)]
    · rw [if_neg h1]
      by_cases h2 : (status == "stopped") = true
      · rw [if_pos h2, groupHosts_appendToGroup_ne _ _ _ _ (by decide), if_neg (by rw [eq_of_beq h2]; decide)]
      · rw [if_neg h2]
        by_cases h3 : (status == "frozen") = true
        · rw [if_pos h3, groupHosts_appendToGroup_ne _ _ _ _ (by decide), if_neg (by rw [eq_of_beq h3]; decide)]
        · rw [if_neg h3]
          by_cases h4 : (status == "error") = true
          · rw [if_pos h4, groupHosts_appendToGroup_self _ _ _ hcont, if_pos (eq_of_beq h4)]
          · rw [if_neg h4]
            rw [if_neg (fun he => h4 (by rw [he]; exact beq_self_eq_true _))]

theorem containsKey_addStatusGroup (status hn : String) (gs : List (String × List String))
    (x : String) : containsKey (addStatusGroup status hn gs) x = containsKey gs x := by
  rw [addStatusGroup]
  by_cases h1 : (status == "running") = true
  · rw [if_pos h1, containsKey_appendToGroup]
  · rw [if_neg h1]
    by_cases h2 : (status == "stopped") = true
    · rw [if_pos h2, containsKey_appendToGroup]
    · rw [if_neg h2]
      by_cases h3 : (status == "frozen") = true
      · rw [if_pos h3, containsKey_appendToGroup]
      · rw [if_neg h3]
        by_cases h4 : (status == "error") = true
        · rw [if_pos h4, containsKey_appendToGroup]
        · rw [if_neg h4]

theorem keys_addStatusGroup (status hn : String) (gs : List (String × List String)) :
    (addStatusGroup status hn gs).map Prod.fst = gs.map Prod.fst := by
  rw [addStatusGroup]
  by_cases h1 : (status == "running") = true
  · rw [if_pos h1, keys_appendToGroup]
  · rw [if_neg h1]
    by_cases h2 : (status == "stopped") = true
    · rw [if_pos h2, keys_appendToGroup]
    · rw [if_neg h2]
      by_cases h3 : (status == "frozen") = true
      · rw [if_pos h3, keys_appendToGroup]
      · rw [if_neg h3]
        by_cases h4 : (status == "error") = true
        · rw [if_pos h4, keys_appendToGroup]
        · rw [if_neg h4]

theorem groupHosts_addProfileGroups (profiles : List String) (hn : String) (g : String)
    (hglen : g.length ≤ 11) :
    ∀ gs, groupHosts (addProfileGroups profiles hn gs) g = groupHosts gs g := by
  induction profiles with
  | nil => intro gs; rfl
  | cons p rest ih =>
    intro gs
    rw [addProfileGroups, List.foldl_cons]
    rw [show (rest.foldl (fun gs profile =>
        appendToGroup (ensureGroup gs ("lxd_profile_" ++ profile)) ("lxd_profile_" ++ profile) hn)
        (appendToGroup (ensureGroup gs ("lxd_profile_" ++ p)) ("lxd_profile_" ++ p) hn)) =
      addProfileGroups rest hn
        (appendToGroup (ensureGroup gs ("lxd_profile_" ++ p)) ("lxd_profile_" ++ p) hn) from rfl]
    rw [ih]
    rw [groupHosts_appendToGroup_ne _ _ _ _
      (fun h => prefix_group_ne "lxd_profile_" p g (by decide) hglen h.symm)]
    rw [groupHosts_ensureGroup]

theorem containsKey_addProfileGroups (profiles : List String) (hn x : String) :
    ∀ gs, containsKey gs x = true → containsKey (addProfileGroups profiles hn gs) x = true := by
  induction profiles with
  | nil => intro gs h; exact h
  | cons p rest ih =>
    intro gs h
    rw [addProfileGroups, List.foldl_cons]
    rw [show (rest.foldl (fun gs profile =>
        appendToGroup (ensureGroup gs ("lxd_profile_" ++ profile)) ("lxd_profile_" ++ profile) hn)
        (appendToGroup (ensureGroup gs ("lxd_profile_" ++ p)) ("lxd_profile_" ++ p) hn)) =
      addProfileGroups rest hn
        (appendToGroup (ensureGroup gs ("lxd_profile_" ++ p)) ("lxd_profile_" ++ p) hn) from rfl]
    apply ih
    rw [containsKey_appendToGroup]
    exact containsKey_ensureGroup_mono _ _ _ h

theorem nodup_keys_addProfileGroups (profiles : List String) (hn : String) :
    ∀ gs : List (String × List String), (gs.map Prod.fst).Nodup →
      ((addProfileGroups profiles hn gs).map Prod.fst).Nodup := by
  induction profiles with
  | nil => intro gs h; exact h
  | cons p rest ih =>
    intro gs h
    rw [addProfileGroups, List.foldl_cons]
    rw [show (rest.foldl (fun gs profile =>
        appendToGroup (ensureGroup gs ("lxd_profile_" ++ profile)) ("lxd_profile_" ++ profile) hn)
        (appendToGroup (ensureGroup gs ("lxd_profile_" ++ p)) ("lxd_profile_" ++ p) hn)) =
      addProfileGroups rest hn
        (appendToGroup (ensureGroup gs ("lxd_profile_" ++ p)) ("lxd_profile_" ++ p) hn) from rfl]
    apply ih
    rw [keys_appendToGroup]
    exact nodup_keys_ensureGroup _ _ h

theorem groupHosts_addProjectGroup (project hn g : String) (gs : List (String × List String))
    (hglen : g.length ≤ 11) :
    groupHosts (addProjectGroup project hn gs) g = groupHosts gs g := by
  rw [addProjectGroup]
  rw [groupHosts_appendToGroup_ne _ _ _ _
    (fun h => prefix_group_ne "lxd_project_" project g (by decide) hglen h.symm)]
  rw [groupHosts_ensureGroup]

theorem containsKey_addProjectGroup (project hn x : String) (gs : List (String × List String))
    (h : containsKey gs x = true) : containsKey (addProjectGroup project hn gs) x = true := by
  rw [addProjectGroup, containsKey_appendToGroup]
  exact containsKey_ensureGroup_mono _ _ _ h

theorem nodup_keys_addProjectGroup (project hn : String) (gs : List (String × List String))
    (h : (gs.map Prod.fst).Nodup) :
    ((addProjectGroup project hn gs).map Prod.fst).Nodup := by
  rw [addProjectGroup, keys_appendToGroup]
  exact nodup_keys_ensureGroup _ _ h

theorem statusGroupPairs_length :
    ∀ gp ∈ statusGroupPairs, gp.1.length ≤ 11 := by decide

theorem groupHosts_addInstanceGroups (egName : String) (inst : Instance) (hn : String)
    (gs : List (String × List String)) (g s : String)
    (hg : (g, s) ∈ statusGroupPairs)
    (hcont : containsKey gs g = true)
    (hegne : egName ≠ g) :
    groupHosts (addInstanceGroups egName inst hn gs) g =
      if pyLower inst.status = s then groupHosts gs g ++ [hn] else groupHosts gs g := by
  rcases statusGroupPairs_facts (g, s) hg with ⟨hlen, hall, _, _⟩
  rw [addInstanceGroups]
  rw [groupHosts_addProjectGroup _ _ _ _ hlen]
  rw [groupHosts_addProfileGroups _ _ _ hlen]
  rw [groupHosts_addStatusGroup _ _ _ _ _ hg (by
    rw [containsKey_addTypeGroup, containsKey_appendToGroup, containsKey_appendToGroup]
    exact hcont)]
  rw [groupHosts_addTypeGroup _ _ _ _ _ hg]
  rw [groupHosts_appendToGroup_ne _ _ _ _ (fun h => hegne h.symm)]
  rw [groupHosts_appendToGroup_ne _ _ _ _ (fun h => hall h)]

theorem containsKey_addInstanceGroups (egName : String) (inst : Instance) (hn x : String)
    (gs : List (String × List String)) (h : containsKey gs x = true) :
    containsKey (addInstanceGroups egName inst hn gs) x = true := by
  rw [addInstanceGroups]
  apply containsKey_addProjectGroup
  apply containsKey_addProfileGroups
  rw [containsKey_addStatusGroup, containsKey_addTypeGroup, containsKey_appendToGroup,
    containsKey_appendToGroup]
  exact h

theorem nodup_keys_addInstanceGroups (egName : String) (inst : Instance) (hn : String)
    (gs : List (String × List String)) (h : (gs.map Prod.fst).Nodup) :
    ((addInstanceGroups egName inst hn gs).map Prod.fst).Nodup := by
  rw [addInstanceGroups]
  apply nodup_keys_addProjectGroup
  apply nodup_keys_addProfileGroups
  rw [keys_addStatusGroup, keys_addTypeGroup, keys_appendToGroup, keys_appendToGroup]
  exact h

theorem c2Invariant_step (reM : String → String → Option Bool) (en : String)
    (cfg : EndpointConfig) (egName : String) (st : InvState) (inst : Instance)
    (hinv : c2Invariant st)
    (hegne : ∀ gp ∈ statusGroupPairs, egName ≠ gp.1)
    (hfresh : resolveHostname (st.hostvars.map Prod.fst) (formatHostname inst cfg) ∉
      st.assigned) :
    c2Invariant (processInstance reM en cfg egName st inst) := by
  rcases hinv with ⟨hgrp, hkeys, hnd, hexact⟩
  by_cases hf : (!filterInstance reM inst cfg) = true
  · rw [show processInstance reM en cfg egName st inst = st from by
      rw [processInstance, if_pos hf]]
    exact ⟨hgrp, hkeys, hnd, hexact⟩
  · have hstep : processInstance reM en cfg egName st inst =
        { hostvars := dictInsert st.hostvars
            (resolveHostname (st.hostvars.map Prod.fst) (formatHostname inst cfg))
            (mkHostvars en cfg inst
              (resolveHostname (st.hostvars.map Prod.fst) (formatHostname inst cfg))),
          groups := addInstanceGroups egName inst
            (resolveHostname (st.hostvars.map Prod.fst) (formatHostname inst cfg)) st.groups,
          assigned := st.assigned ++
            [resolveHostname (st.hostvars.map Prod.fst) (formatHostname inst cfg)] } := by
      rw [processInstance, if_neg hf]
    rw [hstep]
    set hn := resolveHostname (st.hostvars.map Prod.fst) (formatHostname inst cfg) with hhn
    have hfreshkeys : alookup st.hostvars hn = none := by
      rcases hl : alookup st.hostvars hn with _ | v
      · rfl
      · exfalso
        apply hfresh
        apply hkeys
        rw [containsKey, hl]
        rfl
    refine ⟨?_, ?_, ?_, ?_⟩
    · intro gp hgp
      exact containsKey_addInstanceGroups _ _ _ _ _ (hgrp gp hgp)
    · intro k hk
      rw [containsKey, alookup_dictInsert] at hk
      by_cases hkn : k = hn
      · subst hkn
        exact List.mem_append_right _ (List.mem_singleton_self _)
      · rw [if_neg hkn] at hk
        exact List.mem_append_left _ (hkeys k hk)
    · exact nodup_keys_addInstanceGroups _ _ _ _ hnd
    · intro gp hgp h
      have hgp' : (gp.1, gp.2) ∈ statusGroupPairs := by
        rcases gp with ⟨g1, g2⟩
        exact hgp
      rw [show groupHosts (addInstanceGroups egName inst hn st.groups) gp.1 =
          (if pyLower inst.status = gp.2 then groupHosts st.groups gp.1 ++ [hn]
           else groupHosts st.groups gp.1) from
        groupHosts_addInstanceGroups egName inst hn st.groups gp.1 gp.2 hgp'
          (hgrp gp hgp) (hegne gp hgp)]
      by_cases hhn' : h = hn
      · subst hhn'
        constructor
        · intro hmem
          by_cases hmatch : pyLower inst.status = gp.2
          · refine ⟨mkHostvars en cfg inst hn, ?_, ?_⟩
            · rw [alookup_dictInsert, if_pos rfl]
            · simpa [mkHostvars] using hmatch
          · rw [if_neg hmatch] at hmem
            rcases (hexact gp hgp hn).mp hmem with ⟨hv, hl, _⟩
            rw [hfreshkeys] at hl
            exact absurd hl (by simp)
        · rintro ⟨hv, hl, hs⟩
          rw [alookup_dictInsert, if_pos rfl] at hl
          have hhv : hv = mkHostvars en cfg inst hn := (Option.some.inj hl).symm
          subst hhv
          have hmatch : pyLower inst.status = gp.2 := by simpa [mkHostvars] using hs
          rw [if_pos hmatch]
          exact List.mem_append_right _ (List.mem_singleton_self _)
      · constructor
        · intro hmem
          have hmem' : h ∈ groupHosts st.groups gp.1 := by
            by_cases hmatch : pyLower inst.status = gp.2
            · rw [if_pos hmatch] at hmem
              rcases List.mem_append.mp hmem with hm | hm
              · exact hm
              · rw [List.mem_singleton] at hm
                exact absurd hm hhn'
            · rwa [if_neg hmatch] at hmem
          rcases (hexact gp hgp h).mp hmem' with ⟨hv, hl, hs⟩
          refine ⟨hv, ?_, hs⟩
          rw [alookup_dictInsert, if_neg hhn']
          exact hl
        · rintro ⟨hv, hl, hs⟩
          rw [alookup_dictInsert, if_neg hhn'] at hl
          have hmem' := (hexact gp hgp h).mpr ⟨hv, hl, hs⟩
          by_cases hmatch : pyLower inst.status = gp.2
          · rw [if_pos hmatch]
            exact List.mem_append_left _ hmem'
          · rw [if_neg hmatch]
            exact hmem'

theorem processInstance_assigned_shape (reM : String → String → Option Bool) (en : String)
    (cfg : EndpointConfig) (egName : String) (st : InvState) (inst : Instance) :
    ∃ l, (processInstance reM en cfg egName st inst).assigned = st.assigned ++ l := by
  by_cases hf : (!filterInstance reM inst cfg) = true
  · exact ⟨[], by rw [processInstance, if_pos hf, List.append_nil]⟩
  · exact ⟨[resolveHostname (st.hostvars.map Prod.fst) (formatHostname inst cfg)],
      by rw [processInstance, if_neg hf]⟩

theorem foldl_processInstance_assigned (reM : String → String → Option Bool) (en : String)
    (cfg : EndpointConfig) (egName : String) :
    ∀ (insts : List Instance) (st : InvState),
      ∃ l, ((insts.foldl (processInstance reM en cfg egName) st).assigned) =
        st.assigned ++ l := by
  intro insts
  induction insts with
  | nil => intro st; exact ⟨[], by rw [List.foldl_nil, List.append_nil]⟩
  | cons inst rest ih =>
    intro st
    rw [List.foldl_cons]
    rcases ih (processInstance reM en cfg egName st inst) with ⟨l, hl⟩
    rcases processInstance_assigned_shape reM en cfg egName st inst with ⟨l0, hl0⟩
    exact ⟨l0 ++ l, by rw [hl, hl0, List.append_assoc]⟩

theorem c2Invariant_foldInstances (reM : String → String → Option Bool) (en : String)
    (cfg : EndpointConfig) (egName : String)
    (hegne : ∀ gp ∈ statusGroupPairs, egName ≠ gp.1) :
    ∀ (insts : List Instance) (st : InvState), c2Invariant st →
      ((insts.foldl (processInstance reM en cfg egName) st).assigned).Nodup →
      c2Invariant (insts.foldl (processInstance reM en cfg egName) st) := by
  intro insts
  induction insts with
  | nil => intro st h _; exact h
  | cons inst rest ih =>
    intro st hinv hnodup
    rw [List.foldl_cons] at hnodup ⊢
    rcases foldl_processInstance_assigned reM en cfg egName rest
      (processInstance reM en cfg egName st inst) with ⟨l, hl⟩
    have hnd' : (processInstance reM en cfg egName st inst).assigned.Nodup := by
      rw [hl] at hnodup
      exact (List.nodup_append.mp hnodup).1
    apply ih _ ?_ hnodup
    by_cases hf : (!filterInstance reM inst cfg) = true
    · rw [show processInstance reM en cfg egName st inst = st from by
        rw [processInstance, if_pos hf]]
      exact hinv
    · have hshape : (processInstance reM en cfg egName st inst).assigned =
          st.assigned ++
            [resolveHostname (st.hostvars.map Prod.fst) (formatHostname inst cfg)] := by
        rw [processInstance, if_neg hf]
      have hfresh : resolveHostname (st.hostvars.map Prod.fst) (formatHostname inst cfg) ∉
          st.assigned := by
        rw [hshape] at hnd'
        intro hmem
        rcases List.nodup_append.mp hnd' with ⟨_, _, hdisj⟩
        exact hdisj hmem (List.mem_singleton_self _)
      exact c2Invariant_step reM en cfg egName st inst hinv hegne hfresh

theorem processEndpoint_assigned_shape (reM : String → String → Option Bool)
    (fetch : EndpointConfig → FetchEnv) (st : InvState) (ep : String × EndpointConfig) :
    ∃ l, (processEndpoint reM fetch st ep).assigned = st.assigned ++ l := by
  rw [processEndpoint]
  rcases foldl_processInstance_assigned reM ep.1 ep.2 ("lxd_endpoint_" ++ ep.1)
    (getInstances reM (fetch ep.2) ep.2)
    { st with groups := setGroup st.groups ("lxd_endpoint_" ++ ep.1) } with ⟨l, hl⟩
  exact ⟨l, hl⟩

theorem c2Invariant_processEndpoint (reM : String → String → Option Bool)
    (fetch : EndpointConfig → FetchEnv) (st : InvState) (ep : String × EndpointConfig)
    (hinv : c2Invariant st)
    (hnodup : (processEndpoint reM fetch st ep).assigned.Nodup) :
    c2Invariant (processEndpoint reM fetch st ep) := by
  have hegne : ∀ gp ∈ statusGroupPairs, ("lxd_endpoint_" ++ ep.1) ≠ gp.1 := by
    intro gp hgp
    exact prefix_group_ne "lxd_endpoint_" ep.1 gp.1 (by decide)
      (statusGroupPairs_length gp hgp)
  have hinv' : c2Invariant { st with
      groups := setGroup st.groups ("lxd_endpoint_" ++ ep.1) } := by
    rcases hinv with ⟨hgrp, hkeys, hnd, hexact⟩
    refine ⟨?_, hkeys, ?_, ?_⟩
    · intro gp hgp
      exact containsKey_setGroup_mono _ _ _ (hgrp gp hgp)
    · rw [setGroup_eq_dictInsert]
      exact nodup_keys_dictInsert _ _ _ hnd
    · intro gp hgp h
      rw [show groupHosts (setGroup st.groups ("lxd_endpoint_" ++ ep.1)) gp.1 =
          groupHosts st.groups gp.1 from
        groupHosts_setGroup_ne _ _ _ (fun hh => hegne gp hgp hh.symm)]
      exact hexact gp hgp h
  rw [processEndpoint] at hnodup ⊢
  exact c2Invariant_foldInstances reM ep.1 ep.2 _ hegne _ _ hinv' hnodup

theorem foldl_processEndpoint_assigned (reM : String → String → Option Bool)
    (fetch : EndpointConfig → FetchEnv) :
    ∀ (endpoints : List (String × EndpointConfig)) (st : InvState),
      ∃ l, ((endpoints.foldl (processEndpoint reM fetch) st).assigned) = st.assigned ++ l := by
  intro endpoints
  induction endpoints with
  | nil => intro st; exact ⟨[], by rw [List.foldl_nil, List.append_nil]⟩
  | cons ep rest ih =>
    intro st
    rw [List.foldl_cons]
    rcases ih (processEndpoint reM fetch st ep) with ⟨l, hl⟩
    rcases processEndpoint_assigned_shape reM fetch st ep with ⟨l0, hl0⟩
    exact ⟨l0 ++ l, by rw [hl, hl0, List.append_assoc]⟩

theorem c2Invariant_foldEndpoints (reM : String → String → Option Bool)
    (fetch : EndpointConfig → FetchEnv) :
    ∀ (endpoints : List (String × EndpointConfig)) (st : InvState), c2Invariant st →
      ((endpoints.foldl (processEndpoint reM fetch) st).assigned).Nodup →
      c2Invariant (endpoints.foldl (processEndpoint reM fetch) st) := by
  intro endpoints
  induction endpoints with
  | nil => intro st h _; exact h
  | cons ep rest ih =>
    intro st hinv hnodup
    rw [List.foldl_cons] at hnodup ⊢
    rcases foldl_processEndpoint_assigned reM fetch rest
      (processEndpoint reM fetch st ep) with ⟨l, hl⟩
    have hnd' : (processEndpoint reM fetch st ep).assigned.Nodup := by
      rw [hl] at hnodup
      exact (List.nodup_append.mp hnodup).1
    exact ih _ (c2Invariant_processEndpoint reM fetch st ep hinv hnd') hnodup

theorem c2Invariant_init :
    c2Invariant { hostvars := [], groups := initialGroups, assigned := [] } := by
  refine ⟨by decide, ?_, by decide, ?_⟩
  · intro k hk
    rw [containsKey] at hk
    simp [alookup] at hk
  · intro gp hgp h
    constructor
    · intro hmem
      exfalso
      simp only [statusGroupPairs, List.mem_cons, List.not_mem_nil, or_false] at hgp
      rcases hgp with h1 | h1 | h1 | h1 <;> subst h1 <;>
        simp [groupHosts, initialGroups, alookup] at hmem
    · rintro ⟨hv, hl, _⟩
      simp [alookup] at hl

theorem c2Invariant_generate (reM : String → String → Option Bool)
    (fetch : EndpointConfig → FetchEnv) (endpoints : List (String × EndpointConfig))
    (hnodup : (generateInventoryState reM fetch endpoints).assigned.Nodup) :
    c2Invariant (generateInventoryState reM fetch endpoints) := by
  rw [generateInventoryState] at hnodup ⊢
  exact c2Invariant_foldEndpoints reM fetch endpoints _ c2Invariant_init hnodup

theorem groupHosts_filter_nonempty (gs : List (String × List String))
    (hnd : (gs.map Prod.fst).Nodup) (g : String) :
    groupHosts (gs.filter (fun e => !e.2.isEmpty)) g = groupHosts gs g := by
  induction gs with
  | nil => rfl
  | cons e rest ih =>
    rcases e with ⟨ek, ev⟩
    rw [List.map_cons, List.nodup_cons] at hnd
    rcases hnd with ⟨heknot, hnd'⟩
    rw [List.filter_cons]
    by_cases hev : (!(ev.isEmpty : Bool)) = true
    · rw [if_pos hev]
      show (alookup ((ek, ev) :: rest.filter (fun e => !e.2.isEmpty)) g).getD [] =
        (alookup ((ek, ev) :: rest) g).getD []
      by_cases hg : ek = g
      · rw [alookup, if_pos hg, alookup, if_pos hg]
      · rw [alookup, if_neg hg, alookup, if_neg hg]
        exact ih hnd'
    · rw [if_neg hev]
      have hevnil : ev = [] := by
        rcases ev with _ | ⟨a, b⟩
        · rfl
        · simp at hev
      show groupHosts (rest.filter (fun e => !e.2.isEmpty)) g =
        (alookup ((ek, ev) :: rest) g).getD []
      by_cases hg : ek = g
      · have hnone : alookup (rest.filter (fun e => !e.2.isEmpty)) g = none := by
          rw [alookup_eq_none_iff]
          intro hmem
          apply heknot
          rw [hg]
          have hsub0 : List.Sublist (List.filter (fun e => !e.2.isEmpty) rest) rest :=
            List.filter_sublist rest
          exact (List.Sublist.map Prod.fst hsub0).mem hmem
        rw [alookup, if_pos hg, hevnil, groupHosts, hnone]
        rfl
      · rw [alookup, if_neg hg]
        exact ih hnd'

theorem statusGroupPairs_inj :
    ∀ gp ∈ statusGroupPairs, ∀ gq ∈ statusGroupPairs, gp.2 = gq.2 → gp.1 = gq.1 := by decide

set_option maxRecDepth 100000 in
set_option maxHeartbeats 4000000 in
/-- C2 counterexample: in the cap-overflow run (101 instances named `a`,
`a-1`, …, `a-100`, then a stopped instance named `a` whose collision loop
exhausts the 100 suffixes and accepts the colliding name `a-100`), the
hostname `a-100` is a member of both `lxd_running` and `lxd_stopped`, so
membership in the four status groups is neither mutually exclusive nor an
exact match of the instance's status. -/
theorem c2_counterexample :
    ("a-100" ∈ groupHosts c2Inventory.groups "lxd_running") ∧
    ("a-100" ∈ groupHosts c2Inventory.groups "lxd_stopped") := by decide

/-- C2 (amended): for every generated inventory in which no hostname
collision survives the 100-suffix cap (all assigned hostnames are
distinct), each included instance's hostname is a member of at most one of
`lxd_running`, `lxd_stopped`, `lxd_frozen`, `lxd_error`, and membership
exactly matches the recorded status compared case-insensitively; an
instance whose status is none of the four known values joins no status
group. -/
theorem c2_status_groups (reMatch : String → String → Option Bool)
    (fetch : EndpointConfig → FetchEnv) (endpoints : List (String × EndpointConfig))
    (hnodup : (generateInventoryState reMatch fetch endpoints).assigned.Nodup) :
    statusGroupsExact (generateInventory reMatch fetch endpoints).hostvars
      (generateInventory reMatch fetch endpoints).groups ∧
    (∀ h gp gq, gp ∈ statusGroupPairs → gq ∈ statusGroupPairs → gp.1 ≠ gq.1 →
      ¬(h ∈ groupHosts (generateInventory reMatch fetch endpoints).groups gp.1 ∧
        h ∈ groupHosts (generateInventory reMatch fetch endpoints).groups gq.1)) := by
  rcases c2Invariant_generate reMatch fetch endpoints hnodup with ⟨hgrp, hkeys, hnd, hexact⟩
  have hexact' : statusGroupsExact (generateInventory reMatch fetch endpoints).hostvars
      (generateInventory reMatch fetch endpoints).groups := by
    intro gp hgp h
    show h ∈ groupHosts ((generateInventoryState reMatch fetch endpoints).groups.filter
        (fun e => !e.2.isEmpty)) gp.1 ↔
      ∃ hv, alookup (generateInventoryState reMatch fetch endpoints).hostvars h = some hv ∧
        pyLower hv.lxd_status = gp.2
    rw [groupHosts_filter_nonempty _ hnd gp.1]
    exact hexact gp hgp h
  refine ⟨hexact', ?_⟩
  rintro h gp gq hgp hgq hne ⟨hm1, hm2⟩
  rcases (hexact' gp hgp h).mp hm1 with ⟨hv1, hl1, hs1⟩
  rcases (hexact' gq hgq h).mp hm2 with ⟨hv2, hl2, hs2⟩
  rw [hl1] at hl2
  have heq : hv1 = hv2 := Option.some.inj hl2
  subst heq
  rw [hs1] at hs2
  exact hne (statusGroupPairs_inj gp hgp gq hgq hs2)

/-- C2 witness: the two-instance scenario run has duplicate-free assigned
hostnames, so its status-group membership is exact. -/
theorem c2_status_groups_witness :
    (generateInventoryState reMatchNever c1Fetch c1Endpoints).assigned.Nodup ∧
    statusGroupsExact (generateInventory reMatchNever c1Fetch c1Endpoints).hostvars
      (generateInventory reMatchNever c1Fetch c1Endpoints).groups := by
  refine ⟨by decide, ?_⟩
  exact (c2_status_groups reMatchNever c1Fetch c1Endpoints (by decide)).1
